import Mathlib

/-!
Shallow embedding of the XLM/USDC swing-trading strategy
(src/strategies/xlm_usdc_simple.py, class XlmUsdcSimpleStrategy).

Modelling conventions:
* Python `Decimal` values (prices, balances, amounts) and `time.time()`
  timestamps are modelled as exact rationals `ℚ`.  The `Decimal` operations
  used by the strategy (addition, subtraction, multiplication, comparison)
  are exact; division is exact whenever the result fits in the 28
  significant digits of the default context, which holds for every
  concrete value appearing in the development.  Serialising a number
  through a JSON file (Python `float` plus shortest repr) is modelled as
  exact, which is lossless for decimals of at most 15 significant digits.
* Python truthiness of an optional `Decimal` or timestamp (`if self.x:`)
  is `x is not None and x != 0`, captured by `truthy` below.
* The external exchange (`stellar_api.create_buy_offer` /
  `create_sell_offer`) is an oracle: each tick input carries one boolean
  per order kind saying whether the submission call returns normally or
  raises.  A submission is recorded whenever the code reaches the
  `create_*_offer` call, whether or not it succeeds.
* One tick makes several `time.time()` calls; within a tick they are
  modelled as the single value `TickInput.now`.
-/

namespace Cashcow

/-- Truthiness of an optional Decimal / timestamp in Python:
`None` and `0` are falsy, everything else is truthy. -/
def truthy : Option ℚ → Bool
  | none => false
  | some q => q != 0

/-- Instance attributes of `XlmUsdcSimpleStrategy` fixed in `__init__`
(lines 50-59).  `max_xlm_per_trade`, `max_usdc_per_trade` and
`trading_enabled` come from settings; the remaining fields are assigned
the literal defaults shown, and `execute` reads them back as attributes. -/
structure Params where
  max_xlm_per_trade : ℚ := 100
  max_usdc_per_trade : ℚ := 30
  price_check_interval : ℚ := 60
  buy_drop_percentage : ℚ := 2/100
  sell_rise_percentage : ℚ := 5/100
  initial_reference_amount : ℚ := 3
  buy_timeout_hours : ℚ := 5
  price_drop_lookback_hours : ℚ := 12
  significant_drop_percentage : ℚ := 3/100
  trading_enabled : Bool := true
deriving DecidableEq

/-- Default parameter record: every field as assigned in `__init__` with
default settings. -/
def defaultParams : Params := {}

/-- Mutable state of the strategy object (lines 62-72): reference prices
and times, phase flags, price history and the price-check rate limiter. -/
structure TradeState where
  last_sell_price : Option ℚ
  last_buy_price : Option ℚ
  last_sell_time : Option ℚ
  last_buy_time : Option ℚ
  waiting_for_buy : Bool
  waiting_for_sell : Bool
  initial_reference_set : Bool
  price_history : List (ℚ × ℚ)
  last_price_check : ℚ
deriving DecidableEq

/-- Fresh state as set up by `__init__` before `_load_state` runs
(all references `None`, all flags `False`, empty history). -/
def defaultState : TradeState :=
  { last_sell_price := none
    last_buy_price := none
    last_sell_time := none
    last_buy_time := none
    waiting_for_buy := false
    waiting_for_sell := false
    initial_reference_set := false
    price_history := []
    last_price_check := 0 }

/-- The seven phase-defining fields of a `TradeState` (flags and
reference prices/times), excluding the price history and the rate
limiter.  Used to state that a tick makes no phase transition. -/
structure Core where
  wfb : Bool
  wfs : Bool
  irs : Bool
  lsp : Option ℚ
  lbp : Option ℚ
  lst : Option ℚ
  lbt : Option ℚ
deriving DecidableEq

/-- Projection of a state onto its phase-defining fields. -/
def core (s : TradeState) : Core :=
  ⟨s.waiting_for_buy, s.waiting_for_sell, s.initial_reference_set,
   s.last_sell_price, s.last_buy_price, s.last_sell_time, s.last_buy_time⟩

/-- Environment of a single `execute()` invocation: the current time, the
ask side of the order book, the balances returned by `check_balances`,
and the oracle outcomes of the two exchange submission calls. -/
structure TickInput where
  now : ℚ
  asks : List ℚ
  xlm_balance : ℚ
  usdc_balance : ℚ
  sell_offer_ok : Bool
  buy_offer_ok : Bool
deriving DecidableEq

/-- Side of an order request sent to the exchange. -/
inductive OrderSide where
  | buyXlm
  | sellXlm
deriving DecidableEq

/-- An invocation of `create_buy_offer` or `create_sell_offer` with the
amount and price actually passed. -/
structure OrderReq where
  side : OrderSide
  amount : ℚ
  price : ℚ
deriving DecidableEq

/-- The `action` field of the dict returned by `execute()`. -/
inductive Action where
  | skip
  | initial_reference
  | buy
  | sell
  | hold
  | reset
  | error
deriving DecidableEq

/-- Record written to `data/xlm_usdc_state.json` by `_save_state`
(lines 301-310).  A reference price equal to `None` or `0` is stored as
JSON `null` (the code guards with truthiness before `float(...)`);
timestamps are stored unconditionally. -/
structure SavedState where
  last_sell_price : Option ℚ
  last_buy_price : Option ℚ
  last_sell_time : Option ℚ
  last_buy_time : Option ℚ
  waiting_for_buy : Bool
  waiting_for_sell : Bool
  initial_reference_set : Bool
  price_history : List (ℚ × ℚ)
deriving DecidableEq

/-- Embedding of `_save_state` (lines 295-318): truthiness-guarded
serialisation of the reference prices, plain serialisation of times and
flags, and only the last 100 price samples (`price_history[-100:]`). -/
def save_state (s : TradeState) : SavedState :=
  { last_sell_price := if truthy s.last_sell_price then s.last_sell_price else none
    last_buy_price := if truthy s.last_buy_price then s.last_buy_price else none
    last_sell_time := s.last_sell_time
    last_buy_time := s.last_buy_time
    waiting_for_buy := s.waiting_for_buy
    waiting_for_sell := s.waiting_for_sell
    initial_reference_set := s.initial_reference_set
    price_history := s.price_history.drop (s.price_history.length - 100) }

/-- Result of one `execute()` invocation: the returned action, the
`success` flag of the inner trade result (false for non-trade actions),
the submissions that reached the exchange, the post-tick in-memory
state, and the file written by `_save_state` when it ran. -/
structure TickResult where
  action : Action
  success : Bool
  submitted : List OrderReq
  state : TradeState
  saved : Option SavedState
deriving DecidableEq

/-- Embedding of `get_xlm_price` (lines 88-104): the best (first) ask
price, or `Decimal(0)` when the ask side of the book is empty. -/
def get_xlm_price (asks : List ℚ) : ℚ :=
  match asks with
  | [] => 0
  | a :: _ => a

/-- Python `round(x, 7)` on a `Decimal`: quantize to 7 decimal places
with the default ROUND_HALF_EVEN rounding (ties go to the even digit). -/
def round7 (q : ℚ) : ℚ :=
  ((if q * 10000000 - ⌊q * 10000000⌋ < 1/2 then ⌊q * 10000000⌋
    else if 1/2 < q * 10000000 - ⌊q * 10000000⌋ then ⌊q * 10000000⌋ + 1
    else if ⌊q * 10000000⌋ % 2 = 0 then ⌊q * 10000000⌋
    else ⌊q * 10000000⌋ + 1 : ℤ) : ℚ) / 10000000

/-- Outcome of `execute_buy`: `raised` models the uncaught
DivisionByZero from `usdc_balance / price` when the price is zero
(it propagates to the try/except in `execute`); `noFunds` is the
explicit insufficient-balance rejection; `attempted` reaches
`create_buy_offer` with the given amount, succeeding iff `ok`. -/
inductive BuyOutcome where
  | raised
  | noFunds
  | attempted (amount : ℚ) (ok : Bool)
deriving DecidableEq

/-- Embedding of `execute_buy` (lines 127-168). -/
def execute_buy (p : Params) (price xlm_balance usdc_balance : ℚ) (offer_ok : Bool) :
    BuyOutcome :=
  if price = 0 then .raised
  else
    let max_xlm_can_buy :=
      if p.max_xlm_per_trade ≤ usdc_balance / price then p.max_xlm_per_trade
      else usdc_balance / price
    if max_xlm_can_buy < 1 then .noFunds
    else .attempted (round7 max_xlm_can_buy) offer_ok

/-- Outcome of `execute_sell`: either the insufficient-balance rejection
or a call to `create_sell_offer` with the given amount, succeeding iff
`ok`. -/
inductive SellOutcome where
  | noFunds
  | attempted (amount : ℚ) (ok : Bool)
deriving DecidableEq

/-- Embedding of `execute_sell` (lines 170-214): keep a 5 XLM reserve,
cap by `max_xlm_per_trade`, reject a non-positive amount, round to 7
decimal places and submit. -/
def execute_sell (p : Params) (price xlm_balance usdc_balance : ℚ) (offer_ok : Bool) :
    SellOutcome :=
  let available_xlm := xlm_balance - 5
  let amount_to_sell :=
    if p.max_xlm_per_trade ≤ available_xlm then p.max_xlm_per_trade else available_xlm
  if amount_to_sell ≤ 0 then .noFunds
  else .attempted (round7 amount_to_sell) offer_ok

/-- Maximum price in a nonempty sample list:
`max(prices_in_window, key=lambda x: x[1])[1]`. -/
def maxPrice : List (ℚ × ℚ) → ℚ
  | [] => 0
  | [tp] => tp.2
  | tp :: tp2 :: rest =>
    if maxPrice (tp2 :: rest) ≤ tp.2 then tp.2 else maxPrice (tp2 :: rest)

/-- Embedding of `detect_significant_drop` (lines 216-259), with `now`
standing for the `time.time()` call inside the method. -/
def detect_significant_drop (hist : List (ℚ × ℚ)) (now : ℚ)
    (lookback_hours drop_percentage : ℚ) : Bool :=
  if hist.length < 2 then false
  else
    match hist.getLast? with
    | none => false
    | some last =>
      let current_price := last.2
      let lookback_timestamp := now - lookback_hours * 3600
      let prices_in_window := hist.filter fun tp => lookback_timestamp ≤ tp.1
      if prices_in_window.isEmpty then false
      else
        let highest := maxPrice prices_in_window
        if 0 < highest then
          decide ((current_price - highest) / highest ≤ -drop_percentage)
        else false

/-- The `price_drop_condition` predicate of `execute` (line 431):
current price at or below the buy target
`last_sell_price * (1 - buy_drop_percentage)`. -/
def price_drop_condition (p : Params) (lsp price : ℚ) : Bool :=
  decide (price ≤ lsp * (1 - p.buy_drop_percentage))

/-- State updates performed by a successful
`establish_initial_reference` (lines 350-358): set the sell reference,
enter AWAITING_BUY, mark the reference established and append the
sample to the history. -/
def bootState (s : TradeState) (now current_price : ℚ) : TradeState :=
  { s with
    last_sell_price := some current_price
    last_sell_time := some now
    waiting_for_buy := true
    waiting_for_sell := false
    initial_reference_set := true
    price_history := s.price_history ++ [(now, current_price)] }

/-- State updates performed by a successful buy (lines 448-454). -/
def buyState (s : TradeState) (now price : ℚ) : TradeState :=
  { s with
    last_buy_price := some price
    last_buy_time := some now
    waiting_for_buy := false
    waiting_for_sell := true }

/-- State updates performed by a successful sell (lines 478-484). -/
def sellState (s : TradeState) (now price : ℚ) : TradeState :=
  { s with
    last_sell_price := some price
    last_sell_time := some now
    waiting_for_sell := false
    waiting_for_buy := true }

/-- Embedding of `establish_initial_reference` (lines 320-370): balance
guard, submission of the bootstrap sell, and on success the reference
update, history append and state save.  Returns the new state, the
success flag, the submissions made and the file saved. -/
def establish_initial_reference (p : Params) (s : TradeState)
    (current_price now xlm_balance : ℚ) (offer_ok : Bool) :
    TradeState × Bool × List OrderReq × Option SavedState :=
  if xlm_balance < p.initial_reference_amount + 5 then (s, false, [], none)
  else
    let ord : OrderReq := ⟨.sellXlm, p.initial_reference_amount, current_price⟩
    if offer_ok then
      let s2 := bootState s now current_price
      (s2, true, [ord], some (save_state s2))
    else (s, false, [ord], none)

/-- The reset branch of `execute` (lines 491-503): clear every flag and
reference. -/
def resetState (s : TradeState) : TradeState :=
  { s with
    initial_reference_set := false
    waiting_for_buy := false
    waiting_for_sell := false
    last_buy_price := none
    last_sell_price := none
    last_buy_time := none
    last_sell_time := none }

/-- Disjunction of the three buy conditions of `execute` (lines
430-436): price drop below the buy target, 5-hour timeout since the
last sell, and the 3 percent lookback drop. -/
def buyConditions (p : Params) (s : TradeState) (i : TickInput) (price : ℚ) : Bool :=
  price_drop_condition p (s.last_sell_price.getD 0) price
  || decide (p.buy_timeout_hours ≤ (i.now - s.last_sell_time.getD 0) / 3600)
  || detect_significant_drop s.price_history i.now
      p.price_drop_lookback_hours p.significant_drop_percentage

/-- AWAITING_BUY branch of `execute` (lines 415-459): evaluate the three
buy conditions, on any of them run `execute_buy`; a raised division by
zero is caught by the surrounding try/except and reported as `error`. -/
def tickBuyBranch (p : Params) (s : TradeState) (i : TickInput) (price : ℚ) :
    TickResult :=
  if buyConditions p s i price then
    match execute_buy p price i.xlm_balance i.usdc_balance i.buy_offer_ok with
    | .raised => ⟨.error, false, [], s, none⟩
    | .noFunds => ⟨.buy, false, [], s, none⟩
    | .attempted amt ok =>
      if ok then
        let s1 := buyState s i.now price
        ⟨.buy, true, [⟨.buyXlm, amt, price⟩], s1, some (save_state s1)⟩
      else ⟨.buy, false, [⟨.buyXlm, amt, price⟩], s, none⟩
  else ⟨.hold, false, [], s, none⟩

/-- AWAITING_SELL branch of `execute` (lines 461-489): sell when
the current price reaches `last_buy_price * (1 + sell_rise_percentage)`. -/
def tickSellBranch (p : Params) (s : TradeState) (i : TickInput) (price : ℚ) :
    TickResult :=
  if s.last_buy_price.getD 0 * (1 + p.sell_rise_percentage) ≤ price then
    match execute_sell p price i.xlm_balance i.usdc_balance i.sell_offer_ok with
    | .noFunds => ⟨.sell, false, [], s, none⟩
    | .attempted amt ok =>
      if ok then
        let s1 := sellState s i.now price
        ⟨.sell, true, [⟨.sellXlm, amt, price⟩], s1, some (save_state s1)⟩
      else ⟨.sell, false, [⟨.sellXlm, amt, price⟩], s, none⟩
  else ⟨.hold, false, [], s, none⟩

/-- Phase dispatch of `execute` (lines 408-503) on the state whose
history has already been updated for this tick: bootstrap when the
initial reference is not set, the two truthiness-guarded trade branches,
and otherwise the inconsistency reset. -/
def tickMain (p : Params) (s : TradeState) (i : TickInput) (price : ℚ) :
    TickResult :=
  if s.initial_reference_set = false then
    let er := establish_initial_reference p s price i.now i.xlm_balance i.sell_offer_ok
    ⟨.initial_reference, er.2.1, er.2.2.1, er.1, er.2.2.2⟩
  else if s.waiting_for_buy && truthy s.last_sell_price && truthy s.last_sell_time then
    tickBuyBranch p s i price
  else if s.waiting_for_sell && truthy s.last_buy_price then
    tickSellBranch p s i price
  else
    let s1 := resetState s
    ⟨.reset, false, [], s1, some (save_state s1)⟩

/-- State updates of `execute` before the phase dispatch (lines
385-403): bump the rate limiter, append the tick sample and cap the
history at 1000 entries. -/
def afterPriceUpdate (s : TradeState) (i : TickInput) : TradeState :=
  let h1 := s.price_history ++ [(i.now, get_xlm_price i.asks)]
  { s with
    last_price_check := i.now
    price_history := if 1000 < h1.length then h1.drop (h1.length - 1000) else h1 }

/-- Embedding of `execute` (lines 372-507): rate limiting, the
trading-enabled gate, price fetch, history append with the 1000-sample
cap, then the phase dispatch. -/
def execute (p : Params) (s : TradeState) (i : TickInput) : TickResult :=
  if i.now - s.last_price_check < p.price_check_interval then
    ⟨.skip, false, [], s, none⟩
  else if p.trading_enabled = false then
    ⟨.skip, false, [], { s with last_price_check := i.now }, none⟩
  else
    tickMain p (afterPriceUpdate s i) i (get_xlm_price i.asks)

/-- Side of a successful trade, the bootstrap sell counting as a sell. -/
inductive TradeSide where
  | buySide
  | sellSide
deriving DecidableEq

/-- Classification of a tick result as a successful trade: a successful
buy, a successful sell, or a successful bootstrap (initial reference)
sell; everything else is not a trade. -/
def tradeOf (r : TickResult) : Option TradeSide :=
  if r.success then
    match r.action with
    | .buy => some .buySide
    | .sell => some .sellSide
    | .initial_reference => some .sellSide
    | _ => none
  else none

/-- Sequence of successful trade sides produced by running `execute`
over a list of tick inputs, threading the state. -/
def runTrades (p : Params) (s : TradeState) : List TickInput → List TradeSide
  | [] => []
  | i :: is =>
    let r := execute p s i
    match tradeOf r with
    | some t => t :: runTrades p r.state is
    | none => runTrades p r.state is

/-- State reached after running `execute` over a list of tick inputs. -/
def runState (p : Params) (s : TradeState) : List TickInput → TradeState
  | [] => s
  | i :: is => runState p (execute p s i).state is

/-! ### Model of the persisted JSON file as read back by `_load_state`

The state file is produced by `json.dump` in `_save_state`, but
`_load_state` must also cope with arbitrary or corrupted files, so the
reading side is modelled over a looser value type: a price slot of the
parsed JSON record may hold `null`, a boolean, a number, or a value
(such as a non-numeric string) that is truthy but whose conversion
`Decimal(str(v))` raises InvalidOperation. -/

/-- A JSON value sitting in a reference-price slot of the state file.
`jbad` stands for any truthy value whose conversion to `Decimal`
raises (for example a non-numeric string). -/
inductive RawVal where
  | null
  | jbool (b : Bool)
  | jnum (q : ℚ)
  | jbad
deriving DecidableEq

/-- Python truthiness of a `RawVal`. -/
def RawVal.isTruthy : RawVal → Bool
  | .null => false
  | .jbool b => b
  | .jnum q => q != 0
  | .jbad => true

/-- Conversion `Decimal(str(v))`: `some` on success, `none` when the
conversion raises (booleans stringify to non-numeric text and raise). -/
def RawVal.toDec : RawVal → Option ℚ
  | .jnum q => some q
  | _ => none

/-- One element of the persisted `price_history` array; a `none`
timestamp models a missing `timestamp` key, so that the subscription
`entry[timestamp]` raises KeyError. -/
structure RawEntry where
  timestamp : Option ℚ
  price : RawVal
deriving DecidableEq

/-- Parsed JSON record of the state file, with the `state.get` defaults
for missing keys.  Timestamps and flags are modelled well-typed because
`_load_state` stores them without conversion; the reference prices and
history entries go through `Decimal(str(...))` and may raise. -/
structure RawRecord where
  last_sell_price : RawVal := .null
  last_buy_price : RawVal := .null
  last_sell_time : Option ℚ := none
  last_buy_time : Option ℚ := none
  waiting_for_buy : Bool := false
  waiting_for_sell : Bool := false
  initial_reference_set : Bool := false
  price_history : Option (List RawEntry) := none
deriving DecidableEq

/-- A state file on disk: absent, present but not valid JSON, or a
parsed record. -/
inductive RawFile where
  | missing
  | badJson
  | record (r : RawRecord)
deriving DecidableEq

/-- Conversion of the persisted history list
(`[(entry[timestamp], Decimal(str(entry[price]))) for entry in ...]`):
`none` when any entry raises, in which case the whole comprehension
raises and `price_history` keeps its prior (default empty) value. -/
def convertHistory : List RawEntry → Option (List (ℚ × ℚ))
  | [] => some []
  | e :: es =>
    match e.timestamp, e.price.toDec, convertHistory es with
    | some t, some q, some rest => some ((t, q) :: rest)
    | _, _, _ => none

/-- Tail of `_load_state` after the two reference prices: assignment of
times and flags (which cannot raise) followed by the truthiness-guarded
history conversion. -/
def loadTimesFlagsHistory (r : RawRecord) (s : TradeState) : TradeState :=
  let s1 : TradeState :=
    { s with
      last_sell_time := r.last_sell_time
      last_buy_time := r.last_buy_time
      waiting_for_buy := r.waiting_for_buy
      waiting_for_sell := r.waiting_for_sell
      initial_reference_set := r.initial_reference_set }
  match r.price_history with
  | none => s1
  | some entries =>
    if entries.isEmpty then s1
    else
      match convertHistory entries with
      | none => s1
      | some h => { s1 with price_history := h }

/-- Middle of `_load_state`: the `last_buy_price` conversion.  A raise
here is caught by the surrounding try/except, keeping every assignment
already made. -/
def loadAfterLsp (r : RawRecord) (s : TradeState) : TradeState :=
  if r.last_buy_price.isTruthy then
    match r.last_buy_price.toDec with
    | none => s
    | some q => loadTimesFlagsHistory r { s with last_buy_price := some q }
  else loadTimesFlagsHistory r s

/-- Embedding of `_load_state` (lines 261-293) applied to a fresh
strategy object: a missing file or a JSON parse failure leaves the
`__init__` defaults; inside a parsed record, each truthiness-guarded
conversion either assigns its field or raises, and a raise aborts the
remaining assignments while keeping the earlier ones (the exception is
caught and only logged). -/
def load_state (f : RawFile) : TradeState :=
  match f with
  | .missing => defaultState
  | .badJson => defaultState
  | .record r =>
    if r.last_sell_price.isTruthy then
      match r.last_sell_price.toDec with
      | none => defaultState
      | some q => loadAfterLsp r { defaultState with last_sell_price := some q }
    else loadAfterLsp r defaultState

/-- Re-reading of a file just written by `_save_state`: `null` for a
falsy reference price, a JSON number otherwise, and a well-formed
history array (`json.dump` always writes every key). -/
def toRaw (f : SavedState) : RawRecord :=
  { last_sell_price := match f.last_sell_price with
      | none => .null
      | some q => .jnum q
    last_buy_price := match f.last_buy_price with
      | none => .null
      | some q => .jnum q
    last_sell_time := f.last_sell_time
    last_buy_time := f.last_buy_time
    waiting_for_buy := f.waiting_for_buy
    waiting_for_sell := f.waiting_for_sell
    initial_reference_set := f.initial_reference_set
    price_history := some (f.price_history.map fun tp => ⟨some tp.1, .jnum tp.2⟩) }

/-- Save-then-load round trip on a state: write the file with
`_save_state` and read it back with `_load_state` into a fresh strategy
object. -/
def roundTrip (s : TradeState) : TradeState :=
  load_state (.record (toRaw (save_state s)))

/-! ### Specification-side definition for the windowed-drop query -/

/-- Modelled from the spec (section 4.2): `max_drop_in_window` returns
`none` when fewer than 2 samples exist in the full history or no sample
falls in the trailing window, and otherwise the ratio
`(current_price - peak) / peak` where `peak` is the maximum price among
samples with `timestamp ≥ now - window_duration` and `current_price` is
the most recent sample.  Stated over `ℚ`; the repository has no separate
PriceHistory component, only the boolean `detect_significant_drop`. -/
def maxDropInWindow (hist : List (ℚ × ℚ)) (now window_duration : ℚ) : Option ℚ :=
  if hist.length < 2 then none
  else
    let window := hist.filter fun tp => now - window_duration ≤ tp.1
    if window.isEmpty then none
    else
      let peak := maxPrice window
      let current := ((hist.getLast?).map Prod.snd).getD 0
      some ((current - peak) / peak)

/-! ### Predicates used to state the phase-alternation property -/

/-- Well-formed phase fields: every set reference price and reference
time is positive.  This holds for the fresh state and is preserved by
every tick whose inputs satisfy `InputOK` (proved below), so it holds in
every reachable state of such runs. -/
def coreWF (c : Core) : Prop :=
  (∀ q, c.lsp = some q → 0 < q) ∧
  (∀ q, c.lbp = some q → 0 < q) ∧
  (∀ t, c.lst = some t → 0 < t) ∧
  (∀ t, c.lbt = some t → 0 < t)

/-- Phase fields immediately after a successful sell or bootstrap:
AWAITING_BUY with a positive sell reference. -/
def postSell (c : Core) : Prop :=
  coreWF c ∧ c.wfb = true ∧ c.wfs = false ∧ c.irs = true ∧
  (∃ q, c.lsp = some q ∧ 0 < q) ∧ (∃ t, c.lst = some t ∧ 0 < t)

/-- Phase fields immediately after a successful buy: AWAITING_SELL with
a positive buy reference. -/
def postBuy (c : Core) : Prop :=
  coreWF c ∧ c.wfb = false ∧ c.wfs = true ∧ c.irs = true ∧
  (∃ q, c.lbp = some q ∧ 0 < q)

/-- Environment assumptions for a tick: the clock is positive, every ask
price in the book is positive, and a sell submission at the zero default
price read from an empty book does not succeed (the exchange rejects a
zero-price offer). -/
def InputOK (i : TickInput) : Prop :=
  0 < i.now ∧ (∀ a ∈ i.asks, 0 < a) ∧ (i.asks = [] → i.sell_offer_ok = false)

/-- Alternation of a list of trade sides relative to the side of the
previous trade (`none` when there is none): no trade repeats the side
of its predecessor. -/
def altFrom : Option TradeSide → List TradeSide → Prop
  | _, [] => True
  | f, t :: ts => some t ≠ f ∧ altFrom (some t) ts

/-! ## Helper lemmas -/

/-- Half-even rounding moves a value by at most half of the last kept
decimal place. -/
theorem round7_close (q : ℚ) : |round7 q - q| ≤ 1 / 20000000 := by
  unfold round7
  have h1 : ((⌊q * 10000000⌋ : ℤ) : ℚ) ≤ q * 10000000 := Int.floor_le _
  have h2 : q * 10000000 < (⌊q * 10000000⌋ : ℚ) + 1 := Int.lt_floor_add_one _
  split_ifs with hlt hgt hev <;>
    (rw [abs_le]; push_cast; constructor <;> nlinarith [h1, h2])

/-- Values already expressible with 7 decimal places are fixed by
`round7`. -/
theorem round7_exact (n : ℤ) : round7 ((n : ℚ) / 10000000) = (n : ℚ) / 10000000 := by
  unfold round7
  have hx : ((n : ℚ) / 10000000) * 10000000 = (n : ℚ) := by ring
  rw [hx, Int.floor_intCast]
  norm_num

/-- Integer quantities are fixed by `round7`. -/
theorem round7_intCast (m : ℤ) : round7 ((m : ℚ)) = (m : ℚ) := by
  have e : ((m * 10000000 : ℤ) : ℚ) / 10000000 = (m : ℚ) := by
    push_cast
    rw [mul_div_assoc, div_self (by norm_num), mul_one]
  have h := round7_exact (m * 10000000)
  rw [e] at h
  exact h

/-- Unfolding of `maxPrice` on a list of length at least two, in terms
of the lattice maximum. -/
theorem maxPrice_cons (a b : ℚ × ℚ) (l : List (ℚ × ℚ)) :
    maxPrice (a :: b :: l) = max a.2 (maxPrice (b :: l)) := by
  rw [maxPrice]
  exact (max_def' a.2 (maxPrice (b :: l))).symm

/-- Every price in a sample list is bounded by `maxPrice`. -/
theorem le_maxPrice : ∀ (l : List (ℚ × ℚ)) (tp : ℚ × ℚ), tp ∈ l → tp.2 ≤ maxPrice l
  | [], _, h => absurd h (List.not_mem_nil _)
  | [_], tp, h => by
    rcases List.mem_singleton.mp h with rfl
    exact le_of_eq rfl
  | a :: b :: rest, tp, h => by
    rw [maxPrice_cons]
    rcases List.mem_cons.mp h with rfl | h2
    · exact le_max_left _ _
    · exact le_trans (le_maxPrice (b :: rest) tp h2) (le_max_right _ _)

/-- On a nonempty sample list, `maxPrice` is attained by some element. -/
theorem maxPrice_mem : ∀ (l : List (ℚ × ℚ)), l ≠ [] → ∃ tp ∈ l, maxPrice l = tp.2
  | [], h => absurd rfl h
  | [a], _ => ⟨a, List.mem_singleton_self a, rfl⟩
  | a :: b :: rest, _ => by
    rw [maxPrice_cons]
    rcases maxPrice_mem (b :: rest) (by simp) with ⟨tp, htp, heq⟩
    rcases le_total a.2 (maxPrice (b :: rest)) with hle | hle
    · refine ⟨tp, List.mem_cons_of_mem a htp, ?_⟩
      rw [max_eq_right hle, heq]
    · refine ⟨a, List.mem_cons_self a _, ?_⟩
      rw [max_eq_left hle]

/-- Reading back a history list written by `_save_state` converts
cleanly. -/
theorem convertHistory_map (l : List (ℚ × ℚ)) :
    convertHistory (l.map fun tp => ⟨some tp.1, RawVal.jnum tp.2⟩) = some l := by
  induction l with
  | nil => rfl
  | cons hd tl ih => simp only [List.map_cons, convertHistory, RawVal.toDec, ih]

/-- Reading back the times, flags and history written by `_save_state`. -/
theorem loadTimesFlagsHistory_toRaw (f : SavedState) (s : TradeState)
    (hs : s.price_history = []) :
    (loadTimesFlagsHistory (toRaw f) s) =
      { s with
        last_sell_time := f.last_sell_time
        last_buy_time := f.last_buy_time
        waiting_for_buy := f.waiting_for_buy
        waiting_for_sell := f.waiting_for_sell
        initial_reference_set := f.initial_reference_set
        price_history := f.price_history } := by
  unfold loadTimesFlagsHistory
  simp only
    [show (toRaw f).price_history
        = some (f.price_history.map fun tp => ⟨some tp.1, RawVal.jnum tp.2⟩) from rfl,
     show (toRaw f).last_sell_time = f.last_sell_time from rfl,
     show (toRaw f).last_buy_time = f.last_buy_time from rfl,
     show (toRaw f).waiting_for_buy = f.waiting_for_buy from rfl,
     show (toRaw f).waiting_for_sell = f.waiting_for_sell from rfl,
     show (toRaw f).initial_reference_set = f.initial_reference_set from rfl]
  cases hl : f.price_history with
  | nil => simp [hs]
  | cons hd tl =>
    simp only [List.map_cons, List.isEmpty_cons, Bool.false_eq_true, if_false]
    rw [show ({ timestamp := some hd.1, price := RawVal.jnum hd.2 } ::
          List.map (fun tp => { timestamp := some tp.1, price := RawVal.jnum tp.2 }) tl
          : List RawEntry)
        = (hd :: tl).map (fun tp => { timestamp := some tp.1, price := RawVal.jnum tp.2 })
        from rfl]
    rw [convertHistory_map]

/-- Characterisation of `_load_state` applied to any file freshly
written by `_save_state`: the truthiness guard nulls a zero reference
price, every other field comes back unchanged. -/
theorem load_toRaw (f : SavedState) :
    load_state (.record (toRaw f)) =
      { last_sell_price := if truthy f.last_sell_price then f.last_sell_price else none
        last_buy_price := if truthy f.last_buy_price then f.last_buy_price else none
        last_sell_time := f.last_sell_time
        last_buy_time := f.last_buy_time
        waiting_for_buy := f.waiting_for_buy
        waiting_for_sell := f.waiting_for_sell
        initial_reference_set := f.initial_reference_set
        price_history := f.price_history
        last_price_check := 0 } := by
  have hstep : ∀ s : TradeState, s.price_history = [] →
      loadAfterLsp (toRaw f) s =
        { s with
          last_buy_price := if truthy f.last_buy_price then f.last_buy_price else s.last_buy_price
          last_sell_time := f.last_sell_time
          last_buy_time := f.last_buy_time
          waiting_for_buy := f.waiting_for_buy
          waiting_for_sell := f.waiting_for_sell
          initial_reference_set := f.initial_reference_set
          price_history := f.price_history } := by
    intro s hs
    unfold loadAfterLsp
    cases hbp : f.last_buy_price with
    | none =>
      simp only [show (toRaw f).last_buy_price = RawVal.null from by simp [toRaw, hbp],
        RawVal.isTruthy, Bool.false_eq_true, if_false]
      rw [loadTimesFlagsHistory_toRaw f s hs]
      simp [truthy, hbp]
    | some qb =>
      by_cases hqb : qb = 0
      · subst hqb
        simp only [show (toRaw f).last_buy_price = RawVal.jnum 0 from by simp [toRaw, hbp],
          RawVal.isTruthy]
        norm_num
        rw [loadTimesFlagsHistory_toRaw f s hs]
        simp [truthy, hbp]
      · simp only [show (toRaw f).last_buy_price = RawVal.jnum qb from by simp [toRaw, hbp],
          RawVal.isTruthy, RawVal.toDec]
        rw [if_pos (by simpa using hqb)]
        rw [loadTimesFlagsHistory_toRaw f { s with last_buy_price := some qb } hs]
        simp [truthy, hbp, hqb]
  unfold load_state
  cases hsp : f.last_sell_price with
  | none =>
    simp only [show (toRaw f).last_sell_price = RawVal.null from by simp [toRaw, hsp],
      RawVal.isTruthy, Bool.false_eq_true, if_false]
    rw [hstep defaultState rfl]
    simp [truthy, hsp, defaultState]
  | some qs =>
    by_cases hqs : qs = 0
    · subst hqs
      simp only [show (toRaw f).last_sell_price = RawVal.jnum 0 from by simp [toRaw, hsp],
        RawVal.isTruthy]
      norm_num
      rw [hstep defaultState rfl]
      simp [truthy, hsp, defaultState]
    · simp only [show (toRaw f).last_sell_price = RawVal.jnum qs from by simp [toRaw, hsp],
        RawVal.isTruthy, RawVal.toDec]
      rw [if_pos (by simpa using hqs)]
      rw [hstep { defaultState with last_sell_price := some qs } rfl]
      simp [truthy, hsp, hqs, defaultState]

/-! ### Branch characterisation of one tick -/

/-- Buy sizing raises DivisionByZero at price zero. -/
theorem execute_buy_zero (p : Params) (xlm usdc : ℚ) (ok : Bool) :
    execute_buy p 0 xlm usdc ok = .raised := by
  unfold execute_buy
  rw [if_pos rfl]

/-- Buy sizing rejects a computed quantity below 1 XLM. -/
theorem execute_buy_noFunds (p : Params) (price xlm usdc : ℚ) (ok : Bool)
    (hp : price ≠ 0) (h : min p.max_xlm_per_trade (usdc / price) < 1) :
    execute_buy p price xlm usdc ok = .noFunds := by
  unfold execute_buy
  dsimp only
  rw [← min_def, if_neg hp, if_pos h]

/-- Buy sizing submits the rounded computed quantity otherwise. -/
theorem execute_buy_attempted (p : Params) (price xlm usdc : ℚ) (ok : Bool)
    (hp : price ≠ 0) (h : ¬ min p.max_xlm_per_trade (usdc / price) < 1) :
    execute_buy p price xlm usdc ok
      = .attempted (round7 (min p.max_xlm_per_trade (usdc / price))) ok := by
  unfold execute_buy
  dsimp only
  rw [← min_def, if_neg hp, if_neg h]

/-- Buy sizing only raises at price zero. -/
theorem execute_buy_ne_raised (p : Params) (price xlm usdc : ℚ) (ok : Bool)
    (hp : price ≠ 0) : execute_buy p price xlm usdc ok ≠ .raised := by
  unfold execute_buy
  dsimp only
  rw [if_neg hp]
  split_ifs <;> simp

/-- Sell sizing rejects a non-positive computed quantity. -/
theorem execute_sell_noFunds (p : Params) (price xlm usdc : ℚ) (ok : Bool)
    (h : min p.max_xlm_per_trade (xlm - 5) ≤ 0) :
    execute_sell p price xlm usdc ok = .noFunds := by
  unfold execute_sell
  dsimp only
  rw [← min_def, if_pos h]

/-- Sell sizing submits the rounded computed quantity otherwise. -/
theorem execute_sell_attempted (p : Params) (price xlm usdc : ℚ) (ok : Bool)
    (h : ¬ min p.max_xlm_per_trade (xlm - 5) ≤ 0) :
    execute_sell p price xlm usdc ok
      = .attempted (round7 (min p.max_xlm_per_trade (xlm - 5))) ok := by
  unfold execute_sell
  dsimp only
  rw [← min_def, if_neg h]

/-- A rate-limited tick skips with no state change at all. -/
theorem execute_skip (p : Params) (s : TradeState) (i : TickInput)
    (h : i.now - s.last_price_check < p.price_check_interval) :
    execute p s i = ⟨.skip, false, [], s, none⟩ := by
  unfold execute
  rw [if_pos h]

/-- A tick with trading disabled skips after bumping the rate limiter. -/
theorem execute_disabled (p : Params) (s : TradeState) (i : TickInput)
    (h1 : ¬ i.now - s.last_price_check < p.price_check_interval)
    (h2 : p.trading_enabled = false) :
    execute p s i = ⟨.skip, false, [], { s with last_price_check := i.now }, none⟩ := by
  unfold execute
  rw [if_neg h1, if_pos h2]

/-- A live tick records the sample and dispatches on the phase. -/
theorem execute_run (p : Params) (s : TradeState) (i : TickInput)
    (h1 : ¬ i.now - s.last_price_check < p.price_check_interval)
    (h2 : p.trading_enabled = true) :
    execute p s i = tickMain p (afterPriceUpdate s i) i (get_xlm_price i.asks) := by
  unfold execute
  rw [if_neg h1, if_neg (by simp [h2])]

/-- UNINITIALIZED phase with insufficient balance: no order, no change. -/
theorem tickMain_bootstrap_insufficient (p : Params) (s : TradeState) (i : TickInput)
    (price : ℚ) (hirs : s.initial_reference_set = false)
    (hbal : i.xlm_balance < p.initial_reference_amount + 5) :
    tickMain p s i price = ⟨.initial_reference, false, [], s, none⟩ := by
  unfold tickMain establish_initial_reference
  rw [if_pos hirs]
  dsimp only
  rw [if_pos hbal]

/-- UNINITIALIZED phase, sufficient balance, submission accepted: the
bootstrap sell succeeds and the state moves to AWAITING_BUY. -/
theorem tickMain_bootstrap_ok (p : Params) (s : TradeState) (i : TickInput)
    (price : ℚ) (hirs : s.initial_reference_set = false)
    (hbal : ¬ i.xlm_balance < p.initial_reference_amount + 5)
    (hok : i.sell_offer_ok = true) :
    tickMain p s i price = ⟨.initial_reference, true,
      [⟨.sellXlm, p.initial_reference_amount, price⟩],
      bootState s i.now price, some (save_state (bootState s i.now price))⟩ := by
  unfold tickMain establish_initial_reference
  rw [if_pos hirs]
  dsimp only
  rw [if_neg hbal, hok, if_pos rfl]

/-- UNINITIALIZED phase, sufficient balance, submission raises: the
bootstrap order is submitted but the state does not change. -/
theorem tickMain_bootstrap_rejected (p : Params) (s : TradeState) (i : TickInput)
    (price : ℚ) (hirs : s.initial_reference_set = false)
    (hbal : ¬ i.xlm_balance < p.initial_reference_amount + 5)
    (hok : i.sell_offer_ok = false) :
    tickMain p s i price = ⟨.initial_reference, false,
      [⟨.sellXlm, p.initial_reference_amount, price⟩], s, none⟩ := by
  unfold tickMain establish_initial_reference
  rw [if_pos hirs]
  dsimp only
  rw [if_neg hbal, hok]
  rfl

/-- Dispatch into the AWAITING_BUY branch. -/
theorem tickMain_buyBranch (p : Params) (s : TradeState) (i : TickInput) (price : ℚ)
    (hirs : s.initial_reference_set = true)
    (hb : (s.waiting_for_buy && truthy s.last_sell_price && truthy s.last_sell_time) = true) :
    tickMain p s i price = tickBuyBranch p s i price := by
  unfold tickMain
  rw [if_neg (by simp [hirs]), if_pos hb]

/-- Dispatch into the AWAITING_SELL branch. -/
theorem tickMain_sellBranch (p : Params) (s : TradeState) (i : TickInput) (price : ℚ)
    (hirs : s.initial_reference_set = true)
    (hb : (s.waiting_for_buy && truthy s.last_sell_price && truthy s.last_sell_time) = false)
    (hs : (s.waiting_for_sell && truthy s.last_buy_price) = true) :
    tickMain p s i price = tickSellBranch p s i price := by
  unfold tickMain
  rw [if_neg (by simp [hirs]), if_neg (by simp [hb]), if_pos hs]

/-- Dispatch into the inconsistency reset. -/
theorem tickMain_reset (p : Params) (s : TradeState) (i : TickInput) (price : ℚ)
    (hirs : s.initial_reference_set = true)
    (hb : (s.waiting_for_buy && truthy s.last_sell_price && truthy s.last_sell_time) = false)
    (hs : (s.waiting_for_sell && truthy s.last_buy_price) = false) :
    tickMain p s i price
      = ⟨.reset, false, [], resetState s, some (save_state (resetState s))⟩ := by
  unfold tickMain
  rw [if_neg (by simp [hirs]), if_neg (by simp [hb]), if_neg (by simp [hs])]

/-- AWAITING_BUY with no buy condition satisfied: hold. -/
theorem buyBranch_hold (p : Params) (s : TradeState) (i : TickInput) (price : ℚ)
    (h : buyConditions p s i price = false) :
    tickBuyBranch p s i price = ⟨.hold, false, [], s, none⟩ := by
  unfold tickBuyBranch
  rw [if_neg (by simp [h])]

/-- AWAITING_BUY with a buy condition satisfied at price zero: the
division by zero in the sizing is caught and the tick errors out. -/
theorem buyBranch_error (p : Params) (s : TradeState) (i : TickInput)
    (h : buyConditions p s i 0 = true) :
    tickBuyBranch p s i 0 = ⟨.error, false, [], s, none⟩ := by
  unfold tickBuyBranch
  rw [if_pos h, execute_buy_zero]

/-- AWAITING_BUY, buy condition satisfied, sizing raises: the tick
errors out with no order and no state change. -/
theorem buyBranch_error2 (p : Params) (s : TradeState) (i : TickInput) (price : ℚ)
    (h : buyConditions p s i price = true)
    (hb : execute_buy p price i.xlm_balance i.usdc_balance i.buy_offer_ok = .raised) :
    tickBuyBranch p s i price = ⟨.error, false, [], s, none⟩ := by
  unfold tickBuyBranch
  rw [if_pos h, hb]

/-- AWAITING_BUY, buy condition satisfied, sizing rejects: no order. -/
theorem buyBranch_noFunds (p : Params) (s : TradeState) (i : TickInput) (price : ℚ)
    (h : buyConditions p s i price = true)
    (hb : execute_buy p price i.xlm_balance i.usdc_balance i.buy_offer_ok = .noFunds) :
    tickBuyBranch p s i price = ⟨.buy, false, [], s, none⟩ := by
  unfold tickBuyBranch
  rw [if_pos h, hb]

/-- AWAITING_BUY, buy condition satisfied, order accepted: transition to
AWAITING_SELL with the new buy reference, persisted. -/
theorem buyBranch_ok (p : Params) (s : TradeState) (i : TickInput) (price amt : ℚ)
    (h : buyConditions p s i price = true)
    (hb : execute_buy p price i.xlm_balance i.usdc_balance i.buy_offer_ok
      = .attempted amt true) :
    tickBuyBranch p s i price = ⟨.buy, true, [⟨.buyXlm, amt, price⟩],
      buyState s i.now price, some (save_state (buyState s i.now price))⟩ := by
  unfold tickBuyBranch
  rw [if_pos h, hb]
  rfl

/-- AWAITING_BUY, buy condition satisfied, order rejected by the
exchange: submitted but no state change. -/
theorem buyBranch_fail (p : Params) (s : TradeState) (i : TickInput) (price amt : ℚ)
    (h : buyConditions p s i price = true)
    (hb : execute_buy p price i.xlm_balance i.usdc_balance i.buy_offer_ok
      = .attempted amt false) :
    tickBuyBranch p s i price = ⟨.buy, false, [⟨.buyXlm, amt, price⟩], s, none⟩ := by
  unfold tickBuyBranch
  rw [if_pos h, hb]
  rfl

/-- AWAITING_SELL below the sell target: hold. -/
theorem sellBranch_hold (p : Params) (s : TradeState) (i : TickInput) (price : ℚ)
    (h : ¬ s.last_buy_price.getD 0 * (1 + p.sell_rise_percentage) ≤ price) :
    tickSellBranch p s i price = ⟨.hold, false, [], s, none⟩ := by
  unfold tickSellBranch
  rw [if_neg h]

/-- AWAITING_SELL at or above the target, sizing rejects: no order. -/
theorem sellBranch_noFunds (p : Params) (s : TradeState) (i : TickInput) (price : ℚ)
    (h : s.last_buy_price.getD 0 * (1 + p.sell_rise_percentage) ≤ price)
    (hb : execute_sell p price i.xlm_balance i.usdc_balance i.sell_offer_ok = .noFunds) :
    tickSellBranch p s i price = ⟨.sell, false, [], s, none⟩ := by
  unfold tickSellBranch
  rw [if_pos h, hb]

/-- AWAITING_SELL at or above the target, order accepted: transition to
AWAITING_BUY with the new sell reference, persisted. -/
theorem sellBranch_ok (p : Params) (s : TradeState) (i : TickInput) (price amt : ℚ)
    (h : s.last_buy_price.getD 0 * (1 + p.sell_rise_percentage) ≤ price)
    (hb : execute_sell p price i.xlm_balance i.usdc_balance i.sell_offer_ok
      = .attempted amt true) :
    tickSellBranch p s i price = ⟨.sell, true, [⟨.sellXlm, amt, price⟩],
      sellState s i.now price, some (save_state (sellState s i.now price))⟩ := by
  unfold tickSellBranch
  rw [if_pos h, hb]
  rfl

/-- AWAITING_SELL at or above the target, order rejected: submitted but
no state change. -/
theorem sellBranch_fail (p : Params) (s : TradeState) (i : TickInput) (price amt : ℚ)
    (h : s.last_buy_price.getD 0 * (1 + p.sell_rise_percentage) ≤ price)
    (hb : execute_sell p price i.xlm_balance i.usdc_balance i.sell_offer_ok
      = .attempted amt false) :
    tickSellBranch p s i price = ⟨.sell, false, [⟨.sellXlm, amt, price⟩], s, none⟩ := by
  unfold tickSellBranch
  rw [if_pos h, hb]
  rfl

/-- Phase dispatch does not touch the price history once the initial
reference is set (only the bootstrap branch appends a sample). -/
theorem tickMain_price_history (p : Params) (s : TradeState) (i : TickInput) (price : ℚ)
    (hirs : s.initial_reference_set = true) :
    (tickMain p s i price).state.price_history = s.price_history := by
  unfold tickMain
  rw [if_neg (by simp [hirs])]
  split_ifs with h1 h2
  · unfold tickBuyBranch
    split_ifs with h3
    · cases hb : execute_buy p price i.xlm_balance i.usdc_balance i.buy_offer_ok with
      | raised => rfl
      | noFunds => rfl
      | attempted amt ok => cases ok <;> simp [buyState]
    · rfl
  · unfold tickSellBranch
    split_ifs with h3
    · cases hb : execute_sell p price i.xlm_balance i.usdc_balance i.sell_offer_ok with
      | noFunds => rfl
      | attempted amt ok => cases ok <;> simp [sellState]
    · rfl
  · rfl

/-! ## Claims -/

/-- C2, counterexample: with price 1 USDC and balance 1.00000015 USDC the
computed quantity is 1.00000015 XLM, but the code submits
round(1.00000015, 7) = 1.0000002 XLM, which is not the claimed
truncation and exceeds the computed quantity. -/
theorem c2_counterexample :
    execute_buy defaultParams 1 5 (100000015/100000000) true
      = .attempted (5000001/5000000) true ∧
    min defaultParams.max_xlm_per_trade ((100000015/100000000) / 1)
      = 100000015/100000000 ∧
    ¬ ((5000001 : ℚ)/5000000 ≤ 100000015/100000000) := by
  have hmin : min defaultParams.max_xlm_per_trade (((100000015 : ℚ)/100000000) / 1)
      = 100000015/100000000 := by
    rw [show defaultParams.max_xlm_per_trade = 100 from rfl]
    rw [div_one]
    exact min_eq_right (by norm_num)
  have hfloor : ⌊(100000015 : ℚ)/100000000 * 10000000⌋ = 10000001 := by norm_num
  have hval : round7 ((100000015 : ℚ)/100000000) = 5000001/5000000 := by
    unfold round7
    rw [hfloor]
    norm_num
  refine ⟨?_, hmin, by norm_num⟩
  rw [execute_buy_attempted defaultParams 1 5 (100000015/100000000) true (by norm_num)
    (by rw [hmin]; norm_num)]
  rw [hmin, hval]

/-- C2, amended: every submitted buy or sell quantity equals the
computed quantity `min(per-trade cap, available amount)` rounded to 7
decimal places by round-half-to-even (the Python `round`); the rounding
moves the quantity by at most half of the seventh decimal place, and is
the identity whenever the computed quantity already has at most 7
decimal places. -/
theorem c2_quantity_rounding (p : Params) (price xlm usdc : ℚ)
    (sok bok ook : Bool) (amt : ℚ) :
    (execute_buy p price xlm usdc bok = .attempted amt ook →
      amt = round7 (min p.max_xlm_per_trade (usdc / price)) ∧
      |amt - min p.max_xlm_per_trade (usdc / price)| ≤ 1 / 20000000) ∧
    (execute_sell p price xlm usdc sok = .attempted amt ook →
      amt = round7 (min p.max_xlm_per_trade (xlm - 5)) ∧
      |amt - min p.max_xlm_per_trade (xlm - 5)| ≤ 1 / 20000000) ∧
    (∀ n : ℤ, min p.max_xlm_per_trade (usdc / price) = (n : ℚ) / 10000000 →
      execute_buy p price xlm usdc bok = .attempted amt ook →
      amt = min p.max_xlm_per_trade (usdc / price)) := by
  have hbuy : execute_buy p price xlm usdc bok = .attempted amt ook →
      amt = round7 (min p.max_xlm_per_trade (usdc / price)) := by
    intro h
    unfold execute_buy at h
    dsimp only at h
    rw [← min_def] at h
    by_cases h1 : price = 0
    · rw [if_pos h1] at h
      cases h
    · rw [if_neg h1] at h
      by_cases h2 : min p.max_xlm_per_trade (usdc / price) < 1
      · rw [if_pos h2] at h
        cases h
      · rw [if_neg h2] at h
        injection h with ha hb
        exact ha.symm
  refine ⟨fun h => ?_, fun h => ?_, fun n hn h => ?_⟩
  · rcases hbuy h with rfl
    exact ⟨rfl, round7_close _⟩
  · unfold execute_sell at h
    dsimp only at h
    rw [← min_def] at h
    by_cases h1 : min p.max_xlm_per_trade (xlm - 5) ≤ 0
    · rw [if_pos h1] at h
      cases h
    · rw [if_neg h1] at h
      injection h with ha hb
      exact ⟨ha.symm, by rw [← ha]; exact round7_close _⟩
  · rw [hbuy h, hn, round7_exact]

/-- C2, witness for the amended claim: a concrete successful buy sizing
where the rounding is exact. -/
theorem c2_quantity_rounding_witness :
    (2 : ℚ) = round7 (min defaultParams.max_xlm_per_trade ((2 : ℚ) / 1)) ∧
    |(2 : ℚ) - min defaultParams.max_xlm_per_trade ((2 : ℚ) / 1)| ≤ 1 / 20000000 := by
  have hmin : min defaultParams.max_xlm_per_trade ((2 : ℚ) / 1) = 2 := by
    rw [show defaultParams.max_xlm_per_trade = 100 from rfl, div_one]
    exact min_eq_right (by norm_num)
  have hr : round7 (2 : ℚ) = 2 := by simpa using round7_intCast 2
  refine (c2_quantity_rounding defaultParams 1 5 2 true true true 2).1 ?_
  rw [execute_buy_attempted defaultParams 1 5 2 true (by norm_num)
    (by rw [hmin]; norm_num)]
  rw [hmin, hr]

/-- C9, counterexample: a state file whose `last_sell_price` converts
but whose `last_buy_price` raises keeps the already-converted field, so
the loaded state is not the UNINITIALIZED default. -/
theorem c9_counterexample :
    (load_state (.record { last_sell_price := .jnum 2, last_buy_price := .jbad
      })).last_sell_price = some 2 ∧
    load_state (.record { last_sell_price := .jnum 2, last_buy_price := .jbad })
      ≠ defaultState := by
  have h : load_state (.record { last_sell_price := .jnum 2, last_buy_price := .jbad })
      = { defaultState with last_sell_price := some 2 } := by
    unfold load_state
    simp only [RawVal.isTruthy, RawVal.toDec]
    rw [if_pos (by simp)]
    unfold loadAfterLsp
    simp [RawVal.isTruthy, RawVal.toDec]
  rw [h]
  refine ⟨rfl, fun hcontra => ?_⟩
  have h2 : ({ defaultState with last_sell_price := some 2 } : TradeState).last_sell_price
      = defaultState.last_sell_price := by rw [hcontra]
  simp [defaultState] at h2

/-- C9, amended: loading never raises (the embedding is a total
function); a missing file and a file whose JSON does not parse yield the
UNINITIALIZED defaults; a record that fails partway through conversion
keeps the fields assigned before the failure and defaults for the rest. -/
theorem c9_load_fallback :
    load_state .missing = defaultState ∧
    load_state .badJson = defaultState ∧
    (∀ q : ℚ, q ≠ 0 →
      load_state (.record { last_sell_price := .jnum q, last_buy_price := .jbad })
        = { defaultState with last_sell_price := some q }) := by
  refine ⟨rfl, rfl, fun q hq => ?_⟩
  unfold load_state
  simp only [RawVal.isTruthy, RawVal.toDec]
  rw [if_pos (by simpa using hq)]
  unfold loadAfterLsp
  simp [RawVal.isTruthy, RawVal.toDec]

/-- C9, witness for the amended claim at a concrete partially-loadable
file. -/
theorem c9_load_fallback_witness :
    load_state (.record { last_sell_price := .jnum 3, last_buy_price := .jbad })
      = { defaultState with last_sell_price := some 3 } :=
  c9_load_fallback.2.2 3 (by norm_num)

/-- C3, counterexample: from the fresh state, one tick with an empty
order book (price read as 0) and an accepted bootstrap sell reaches a
state with `last_sell_price = 0`; saving and reloading that state turns
the zero reference into `None`, so the round trip is not the identity on
a reachable state. -/
theorem c3_counterexample :
    (execute defaultParams defaultState ⟨60, [], 10, 30, true, true⟩).state.last_sell_price
      = some 0 ∧
    (roundTrip (execute defaultParams defaultState
        ⟨60, [], 10, 30, true, true⟩).state).last_sell_price = none := by
  have hrun : execute defaultParams defaultState ⟨60, [], 10, 30, true, true⟩
      = tickMain defaultParams (afterPriceUpdate defaultState ⟨60, [], 10, 30, true, true⟩)
          ⟨60, [], 10, 30, true, true⟩ 0 :=
    execute_run _ _ _ (by norm_num [defaultState, defaultParams]) rfl
  have hboot : tickMain defaultParams
        (afterPriceUpdate defaultState ⟨60, [], 10, 30, true, true⟩)
        ⟨60, [], 10, 30, true, true⟩ 0
      = ⟨.initial_reference, true, [⟨.sellXlm, 3, 0⟩],
          bootState (afterPriceUpdate defaultState ⟨60, [], 10, 30, true, true⟩) 60 0,
          some (save_state (bootState
            (afterPriceUpdate defaultState ⟨60, [], 10, 30, true, true⟩) 60 0))⟩ :=
    tickMain_bootstrap_ok _ _ _ _ rfl (by norm_num [defaultParams]) rfl
  rw [hrun, hboot]
  refine ⟨rfl, ?_⟩
  unfold roundTrip
  rw [load_toRaw]
  simp [save_state, bootState, truthy]

/-- C3, amended: for every TradeState whose set reference prices are
nonzero (which covers all states reached when trades execute at nonzero
prices), save followed by load reproduces the flags and all four
reference fields exactly. -/
theorem c3_roundtrip (s : TradeState)
    (h1 : s.last_sell_price ≠ some 0) (h2 : s.last_buy_price ≠ some 0) :
    (roundTrip s).last_sell_price = s.last_sell_price ∧
    (roundTrip s).last_buy_price = s.last_buy_price ∧
    (roundTrip s).last_sell_time = s.last_sell_time ∧
    (roundTrip s).last_buy_time = s.last_buy_time ∧
    (roundTrip s).waiting_for_buy = s.waiting_for_buy ∧
    (roundTrip s).waiting_for_sell = s.waiting_for_sell ∧
    (roundTrip s).initial_reference_set = s.initial_reference_set := by
  unfold roundTrip
  rw [load_toRaw]
  refine ⟨?_, ?_, rfl, rfl, rfl, rfl, rfl⟩
  · cases hsp : s.last_sell_price with
    | none => simp [save_state, truthy, hsp]
    | some q =>
      have hq : q ≠ 0 := fun h => h1 (by rw [hsp, h])
      simp [save_state, truthy, hsp, hq]
  · cases hbp : s.last_buy_price with
    | none => simp [save_state, truthy, hbp]
    | some q =>
      have hq : q ≠ 0 := fun h => h2 (by rw [hbp, h])
      simp [save_state, truthy, hbp, hq]

/-- C3, witness for the amended claim at a concrete AWAITING_BUY state. -/
theorem c3_roundtrip_witness :
    (roundTrip { defaultState with
        last_sell_price := some 3
        last_sell_time := some 60
        waiting_for_buy := true
        initial_reference_set := true }).last_sell_price = some 3 ∧
    (roundTrip { defaultState with
        last_sell_price := some 3
        last_sell_time := some 60
        waiting_for_buy := true
        initial_reference_set := true }).waiting_for_buy = true := by
  have h := c3_roundtrip { defaultState with
      last_sell_price := some 3
      last_sell_time := some 60
      waiting_for_buy := true
      initial_reference_set := true } (by simp) (by simp [defaultState])
  exact ⟨h.1, h.2.2.2.2.1⟩

/-- C10: every save writes exactly the trailing 100 (or fewer) history
samples, a suffix of the in-memory history in order; loading the saved
file reproduces exactly that list; and once the initial reference is
set, a tick keeps the in-memory history within the 1000-sample cap. -/
theorem c10_history_bounds (s : TradeState) (p : Params) (i : TickInput) :
    (save_state s).price_history
      = s.price_history.drop (s.price_history.length - 100) ∧
    (save_state s).price_history.length ≤ 100 ∧
    List.IsSuffix (save_state s).price_history s.price_history ∧
    (roundTrip s).price_history = (save_state s).price_history ∧
    (s.initial_reference_set = true → s.price_history.length ≤ 1000 →
      (execute p s i).state.price_history.length ≤ 1000) := by
  refine ⟨rfl, ?_, ?_, ?_, fun hirs hlen => ?_⟩
  · show (s.price_history.drop (s.price_history.length - 100)).length ≤ 100
    rw [List.length_drop]
    omega
  · exact List.drop_suffix _ _
  · unfold roundTrip
    rw [load_toRaw]
  · unfold execute
    split_ifs with hr he
    · exact hlen
    · exact hlen
    · rw [tickMain_price_history p (afterPriceUpdate s i) i (get_xlm_price i.asks) hirs]
      show (if 1000 < (s.price_history ++ [(i.now, get_xlm_price i.asks)]).length then
        (s.price_history ++ [(i.now, get_xlm_price i.asks)]).drop
          ((s.price_history ++ [(i.now, get_xlm_price i.asks)]).length - 1000)
        else s.price_history ++ [(i.now, get_xlm_price i.asks)]).length ≤ 1000
      split_ifs with hc
      · simp only [List.length_drop]
        omega
      · simp only [List.length_append, List.length_singleton] at hc ⊢
        omega

/-- C5: the boolean lookback predicate of the code agrees exactly with
the spec-side `max_drop_in_window` query: it is true iff the query
returns some ratio at most `-frac`, and the query returns none iff the
full history has fewer than 2 samples or no sample falls in the window.
Stated for nonnegative sample prices (order-book prices; an empty book
contributes price 0) and positive drop fraction. -/
theorem c5_lookback_drop (hist : List (ℚ × ℚ)) (now lookback_hours frac : ℚ)
    (hpos : ∀ tp ∈ hist, 0 ≤ tp.2) (hfrac : 0 < frac) :
    (detect_significant_drop hist now lookback_hours frac = true ↔
      ∃ r, maxDropInWindow hist now (lookback_hours * 3600) = some r ∧ r ≤ -frac) ∧
    (maxDropInWindow hist now (lookback_hours * 3600) = none ↔
      (hist.length < 2 ∨
        hist.filter (fun tp => now - lookback_hours * 3600 ≤ tp.1) = [])) := by
  unfold detect_significant_drop maxDropInWindow
  by_cases hlen : hist.length < 2
  · rw [if_pos hlen, if_pos hlen]
    constructor
    · simp
    · simp [hlen]
  · rw [if_neg hlen, if_neg hlen]
    dsimp only
    obtain ⟨last, hg⟩ : ∃ l, hist.getLast? = some l := by
      cases hg2 : hist.getLast? with
      | none =>
        exfalso
        rw [List.getLast?_eq_none_iff] at hg2
        rw [hg2] at hlen
        simp at hlen
      | some l => exact ⟨l, rfl⟩
    rw [hg]
    dsimp only
    · simp only [Option.map_some', Option.getD_some]
      by_cases hw : (hist.filter fun tp => now - lookback_hours * 3600 ≤ tp.1).isEmpty
      · rw [if_pos hw, if_pos hw]
        constructor
        · simp
        · exact iff_of_true rfl (Or.inr (List.isEmpty_iff.mp hw))
      · rw [if_neg hw, if_neg hw]
        have hwne : (hist.filter fun tp => now - lookback_hours * 3600 ≤ tp.1) ≠ [] := by
          intro hcontra
          rw [hcontra] at hw
          exact hw rfl
        have hpk0 : 0 ≤ maxPrice (hist.filter fun tp => now - lookback_hours * 3600 ≤ tp.1) := by
          rcases maxPrice_mem _ hwne with ⟨tp, htp, heq⟩
          rw [heq]
          exact hpos tp (List.mem_of_mem_filter htp)
        constructor
        · by_cases hpk : 0 < maxPrice (hist.filter fun tp => now - lookback_hours * 3600 ≤ tp.1)
          · rw [if_pos hpk]
            simp
          · rw [if_neg hpk]
            have hz : maxPrice (hist.filter fun tp => now - lookback_hours * 3600 ≤ tp.1) = 0 :=
              le_antisymm (not_lt.mp hpk) hpk0
            rw [hz]
            simp only [sub_zero, div_zero, Bool.false_eq_true, false_iff]
            rintro ⟨r, hr, hr2⟩
            injection hr with hr
            rw [← hr] at hr2
            linarith
        · refine iff_of_false (by simp) ?_
          rintro (h | h)
          · exact hlen h
          · exact hwne h

/-- C5, witness at a concrete two-sample history with a 50 percent
drop inside the window. -/
theorem c5_lookback_drop_witness :
    (detect_significant_drop [((0 : ℚ), (2 : ℚ)), (100, 1)] 100 12 (3/100) = true ↔
      ∃ r, maxDropInWindow [((0 : ℚ), (2 : ℚ)), (100, 1)] 100 (12 * 3600) = some r ∧
        r ≤ -(3/100)) ∧
    (maxDropInWindow [((0 : ℚ), (2 : ℚ)), (100, 1)] 100 (12 * 3600) = none ↔
      (([((0 : ℚ), (2 : ℚ)), (100, 1)] : List (ℚ × ℚ)).length < 2 ∨
        ([((0 : ℚ), (2 : ℚ)), (100, 1)] : List (ℚ × ℚ)).filter
          (fun tp => 100 - 12 * 3600 ≤ tp.1) = [])) :=
  c5_lookback_drop [((0 : ℚ), (2 : ℚ)), (100, 1)] 100 12 (3/100)
    (by
      intro tp htp
      rcases List.mem_cons.mp htp with rfl | h2
      · norm_num
      · rcases List.mem_singleton.mp h2 with rfl
        norm_num)
    (by norm_num)

/-- C6, counterexample: at a held balance of exactly 8 XLM (equal to
bootstrap amount 3 plus reserve 5, not strictly greater), the code
still submits the bootstrap sell and on success enters AWAITING_BUY. -/
theorem c6_counterexample :
    (establish_initial_reference defaultParams defaultState 2 60 8 true).2.1 = true ∧
    (establish_initial_reference defaultParams defaultState 2 60 8 true).2.2.1 ≠ [] ∧
    (establish_initial_reference defaultParams defaultState 2 60 8 true).1.waiting_for_buy
      = true ∧
    ¬ ((8 : ℚ) > 3 + 5) := by
  have h : establish_initial_reference defaultParams defaultState 2 60 8 true
      = (bootState defaultState 60 2, true,
         [⟨.sellXlm, defaultParams.initial_reference_amount, 2⟩],
         some (save_state (bootState defaultState 60 2))) := by
    unfold establish_initial_reference
    rw [if_neg (by norm_num [defaultParams])]
    rfl
  rw [h]
  refine ⟨rfl, by simp, rfl, by norm_num⟩

/-- C6, amended: the bootstrap sell is submitted exactly when the held
balance is at least (not strictly above) bootstrap amount plus the
5 XLM reserve; on success the sell reference is set to the tick price
and time, the phase becomes AWAITING_BUY and the state is saved; with
balance 10 the bootstrap succeeds at the tick level; on insufficient
balance or submission failure nothing changes. -/
theorem c6_bootstrap (p : Params) (s : TradeState) (i : TickInput) (price : ℚ) :
    ((establish_initial_reference p s price i.now i.xlm_balance i.sell_offer_ok).2.2.1 ≠ []
      ↔ p.initial_reference_amount + 5 ≤ i.xlm_balance) ∧
    (p.initial_reference_amount + 5 ≤ i.xlm_balance → i.sell_offer_ok = true →
      establish_initial_reference p s price i.now i.xlm_balance i.sell_offer_ok
        = (bootState s i.now price, true,
           [⟨.sellXlm, p.initial_reference_amount, price⟩],
           some (save_state (bootState s i.now price))) ∧
      (bootState s i.now price).last_sell_price = some price ∧
      (bootState s i.now price).last_sell_time = some i.now ∧
      (bootState s i.now price).waiting_for_buy = true ∧
      (bootState s i.now price).waiting_for_sell = false ∧
      (bootState s i.now price).initial_reference_set = true) ∧
    ((i.xlm_balance < p.initial_reference_amount + 5 ∨ i.sell_offer_ok = false) →
      (establish_initial_reference p s price i.now i.xlm_balance i.sell_offer_ok).1 = s ∧
      (establish_initial_reference p s price i.now i.xlm_balance i.sell_offer_ok).2.1
        = false) ∧
    (s.initial_reference_set = false →
      ¬ i.now - s.last_price_check < p.price_check_interval →
      p.trading_enabled = true → i.asks = [price] →
      i.xlm_balance = 10 → p.initial_reference_amount = 3 → i.sell_offer_ok = true →
      (execute p s i).action = .initial_reference ∧
      (execute p s i).success = true ∧
      (execute p s i).state.waiting_for_buy = true ∧
      (execute p s i).state.last_sell_price = some price ∧
      (execute p s i).saved ≠ none) := by
  refine ⟨?_, fun hbal hok => ?_, fun hfail => ?_, fun hirs hrate hen hasks hbal hamt hok => ?_⟩
  · unfold establish_initial_reference
    by_cases hb : i.xlm_balance < p.initial_reference_amount + 5
    · rw [if_pos hb]
      simp [not_le.mpr hb]
    · rw [if_neg hb]
      cases hoks : i.sell_offer_ok
      · simp [not_lt.mp hb]
      · simp [not_lt.mp hb]
  · unfold establish_initial_reference
    rw [if_neg (not_lt.mpr hbal), hok, if_pos rfl]
    exact ⟨rfl, rfl, rfl, rfl, rfl, rfl⟩
  · unfold establish_initial_reference
    rcases hfail with hb | hok
    · rw [if_pos hb]
      exact ⟨rfl, rfl⟩
    · by_cases hb : i.xlm_balance < p.initial_reference_amount + 5
      · rw [if_pos hb]
        exact ⟨rfl, rfl⟩
      · rw [if_neg hb, hok]
        exact ⟨rfl, rfl⟩
  · have hprice : get_xlm_price i.asks = price := by rw [hasks]; rfl
    have hrun := execute_run p s i hrate hen
    have hboot := tickMain_bootstrap_ok p (afterPriceUpdate s i) i (get_xlm_price i.asks)
      hirs (by rw [hbal, hamt]; norm_num) hok
    rw [hrun, hboot]
    refine ⟨rfl, rfl, rfl, ?_, by simp⟩
    show (bootState (afterPriceUpdate s i) i.now (get_xlm_price i.asks)).last_sell_price
      = some price
    rw [hprice]
    rfl

/-- C6, witness: the concrete scenario with balance 10 succeeding at a
positive price, plus the bootstrap guard instantiated at balance 9. -/
theorem c6_bootstrap_witness :
    (execute defaultParams defaultState ⟨60, [2], 10, 30, true, true⟩).action
      = .initial_reference ∧
    (execute defaultParams defaultState ⟨60, [2], 10, 30, true, true⟩).success = true ∧
    (execute defaultParams defaultState
      ⟨60, [2], 10, 30, true, true⟩).state.waiting_for_buy = true ∧
    (execute defaultParams defaultState
      ⟨60, [2], 10, 30, true, true⟩).state.last_sell_price = some 2 ∧
    (execute defaultParams defaultState ⟨60, [2], 10, 30, true, true⟩).saved ≠ none := by
  have h := (c6_bootstrap defaultParams defaultState ⟨60, [2], 10, 30, true, true⟩ 2).2.2.2
    rfl (by norm_num [defaultState, defaultParams]) rfl rfl rfl rfl rfl
  exact h

/-- C7: in AWAITING_BUY the price-drop predicate is exactly the
non-strict comparison against `last_sell_price * (1 - buy_drop_fraction)`,
and at exact equality the predicate is true and the tick takes the buy
path. -/
theorem c7_price_drop_boundary (p : Params) (s : TradeState) (i : TickInput) (P T : ℚ)
    (hen : p.trading_enabled = true)
    (hrate : ¬ i.now - s.last_price_check < p.price_check_interval)
    (hirs : s.initial_reference_set = true)
    (hwfb : s.waiting_for_buy = true)
    (hlsp : s.last_sell_price = some P) (hP : 0 < P)
    (hlst : s.last_sell_time = some T) (hT : T ≠ 0)
    (hfrac : p.buy_drop_percentage < 1)
    (hasks : i.asks = [P * (1 - p.buy_drop_percentage)]) :
    (∀ price : ℚ, price_drop_condition p P price = true ↔
      price ≤ P * (1 - p.buy_drop_percentage)) ∧
    price_drop_condition p P (P * (1 - p.buy_drop_percentage)) = true ∧
    (execute p s i).action = .buy := by
  have hpeq : get_xlm_price i.asks = P * (1 - p.buy_drop_percentage) := by
    rw [hasks]
    rfl
  have hppos : 0 < get_xlm_price i.asks := by
    rw [hpeq]
    exact mul_pos hP (by linarith)
  refine ⟨fun price => by unfold price_drop_condition; simp,
          by unfold price_drop_condition; simp, ?_⟩
  have hrun := execute_run p s i hrate hen
  have hbr : ((afterPriceUpdate s i).waiting_for_buy
      && truthy (afterPriceUpdate s i).last_sell_price
      && truthy (afterPriceUpdate s i).last_sell_time) = true := by
    show (s.waiting_for_buy && truthy s.last_sell_price && truthy s.last_sell_time) = true
    rw [hwfb, hlsp, hlst]
    simp [truthy, ne_of_gt hP, hT]
  have hcond : buyConditions p (afterPriceUpdate s i) i (get_xlm_price i.asks) = true := by
    unfold buyConditions
    have h1 : price_drop_condition p
        ((afterPriceUpdate s i).last_sell_price.getD 0) (get_xlm_price i.asks) = true := by
      show price_drop_condition p (s.last_sell_price.getD 0) (get_xlm_price i.asks) = true
      rw [hlsp, hpeq]
      unfold price_drop_condition
      simp
    rw [h1]
    simp
  rw [hrun, tickMain_buyBranch p (afterPriceUpdate s i) i (get_xlm_price i.asks) hirs hbr]
  cases hb2 : execute_buy p (get_xlm_price i.asks) i.xlm_balance i.usdc_balance
      i.buy_offer_ok with
  | raised => exact absurd hb2 (execute_buy_ne_raised _ _ _ _ _ (ne_of_gt hppos))
  | noFunds => rw [buyBranch_noFunds p _ i _ hcond hb2]
  | attempted amt ok =>
    cases ok
    · rw [buyBranch_fail p _ i _ amt hcond hb2]
    · rw [buyBranch_ok p _ i _ amt hcond hb2]

/-- C7, witness at the exact boundary price 0.98 for a sell reference
of 1. -/
theorem c7_price_drop_boundary_witness :
    price_drop_condition defaultParams 1
      (1 * (1 - defaultParams.buy_drop_percentage)) = true ∧
    (execute defaultParams { defaultState with
        waiting_for_buy := true
        last_sell_price := some 1
        last_sell_time := some 50
        initial_reference_set := true }
      ⟨60, [49/50], 100, 100, true, true⟩).action = .buy := by
  have h := c7_price_drop_boundary defaultParams
    { defaultState with
      waiting_for_buy := true
      last_sell_price := some 1
      last_sell_time := some 50
      initial_reference_set := true }
    ⟨60, [49/50], 100, 100, true, true⟩ 1 50
    rfl (by show ¬ ((60 : ℚ) - 0 < 60); norm_num) rfl rfl rfl (by norm_num) rfl
    (by norm_num) (by show defaultParams.buy_drop_percentage < 1; norm_num [defaultParams])
    (by show [(49/50 : ℚ)] = [1 * (1 - defaultParams.buy_drop_percentage)]
        norm_num [defaultParams])
  exact ⟨h.2.1, h.2.2⟩

/-- C8: in AWAITING_SELL the tick takes the sell path exactly when the
price reaches `last_buy_price * (1 + sell_rise_percentage)` (non-strict)
and holds otherwise; with buy reference 0.294 and rise 0.03 the exact
threshold is 0.30282, so at price 0.302 the tick holds.  The rise
fraction is read from the instance attribute, initialised to 0.05. -/
theorem c8_sell_threshold (p : Params) (s : TradeState) (i : TickInput) (B : ℚ)
    (hen : p.trading_enabled = true)
    (hrate : ¬ i.now - s.last_price_check < p.price_check_interval)
    (hcap : 0 < p.max_xlm_per_trade)
    (hirs : s.initial_reference_set = true)
    (hwfb : s.waiting_for_buy = false)
    (hwfs : s.waiting_for_sell = true)
    (hlbp : s.last_buy_price = some B) (hB : B ≠ 0)
    (hbal : 5 < i.xlm_balance) :
    ((execute p s i).submitted ≠ [] ↔
      B * (1 + p.sell_rise_percentage) ≤ get_xlm_price i.asks) ∧
    (¬ B * (1 + p.sell_rise_percentage) ≤ get_xlm_price i.asks →
      (execute p s i).action = .hold) ∧
    ((294/1000 : ℚ) * (1 + 3/100) = 30282/100000) ∧
    ¬ ((30282/100000 : ℚ) ≤ 302/1000) ∧
    (execute { defaultParams with sell_rise_percentage := 3/100 }
      { defaultState with
        waiting_for_sell := true
        last_buy_price := some (294/1000)
        initial_reference_set := true }
      ⟨60, [302/1000], 100, 100, true, true⟩).action = .hold := by
  have hrun := execute_run p s i hrate hen
  have hbf : ((afterPriceUpdate s i).waiting_for_buy
      && truthy (afterPriceUpdate s i).last_sell_price
      && truthy (afterPriceUpdate s i).last_sell_time) = false := by
    show (s.waiting_for_buy && truthy s.last_sell_price && truthy s.last_sell_time) = false
    rw [hwfb]
    simp
  have hsc : ((afterPriceUpdate s i).waiting_for_sell
      && truthy (afterPriceUpdate s i).last_buy_price) = true := by
    show (s.waiting_for_sell && truthy s.last_buy_price) = true
    rw [hwfs, hlbp]
    simp [truthy, hB]
  have hdisp := tickMain_sellBranch p (afterPriceUpdate s i) i (get_xlm_price i.asks)
    hirs hbf hsc
  have hgetD : (afterPriceUpdate s i).last_buy_price.getD 0 = B := by
    show s.last_buy_price.getD 0 = B
    rw [hlbp]
    rfl
  have hscen : (execute { defaultParams with sell_rise_percentage := 3/100 }
      { defaultState with
        waiting_for_sell := true
        last_buy_price := some (294/1000)
        initial_reference_set := true }
      ⟨60, [302/1000], 100, 100, true, true⟩).action = .hold := by
    have hrun2 := execute_run { defaultParams with sell_rise_percentage := 3/100 }
      { defaultState with
        waiting_for_sell := true
        last_buy_price := some (294/1000)
        initial_reference_set := true }
      ⟨60, [302/1000], 100, 100, true, true⟩
      (by show ¬ ((60 : ℚ) - 0 < 60); norm_num) rfl
    have hsB := tickMain_sellBranch { defaultParams with sell_rise_percentage := 3/100 }
      (afterPriceUpdate
        { defaultState with
          waiting_for_sell := true
          last_buy_price := some (294/1000)
          initial_reference_set := true }
        ⟨60, [302/1000], 100, 100, true, true⟩)
      ⟨60, [302/1000], 100, 100, true, true⟩
      (get_xlm_price (⟨60, [302/1000], 100, 100, true, true⟩ : TickInput).asks)
      rfl
      (by show ((false : Bool) && truthy none && truthy none) = false; rfl)
      (by show ((true : Bool) && truthy (some (294/1000 : ℚ))) = true
          simp [truthy])
    rw [hrun2, hsB]
    rw [sellBranch_hold _ _ _ _
      (by show ¬ ((294/1000 : ℚ) * (1 + 3/100) ≤ 302/1000); norm_num)]
  refine ⟨?_, fun hlt => ?_, by norm_num, by norm_num, hscen⟩
  · by_cases hc : B * (1 + p.sell_rise_percentage) ≤ get_xlm_price i.asks
    · have hmin : ¬ min p.max_xlm_per_trade (i.xlm_balance - 5) ≤ 0 := by
        rw [not_le]
        exact lt_min hcap (by linarith)
      have hsell := execute_sell_attempted p (get_xlm_price i.asks) i.xlm_balance
        i.usdc_balance i.sell_offer_ok hmin
      cases hok : i.sell_offer_ok
      · have hsell2 : execute_sell p (get_xlm_price i.asks) i.xlm_balance i.usdc_balance
            i.sell_offer_ok
            = .attempted (round7 (min p.max_xlm_per_trade (i.xlm_balance - 5))) false := by
          rw [hsell, hok]
        rw [hrun, hdisp, sellBranch_fail p _ i _ _ (by rw [hgetD]; exact hc) hsell2]
        simp [hc]
      · have hsell2 : execute_sell p (get_xlm_price i.asks) i.xlm_balance i.usdc_balance
            i.sell_offer_ok
            = .attempted (round7 (min p.max_xlm_per_trade (i.xlm_balance - 5))) true := by
          rw [hsell, hok]
        rw [hrun, hdisp, sellBranch_ok p _ i _ _ (by rw [hgetD]; exact hc) hsell2]
        simp [hc]
    · rw [hrun, hdisp, sellBranch_hold p _ i _ (by rw [hgetD]; exact hc)]
      simp [hc]
  · rw [hrun, hdisp, sellBranch_hold p _ i _ (by rw [hgetD]; exact hlt)]

/-- C8, witness: a concrete AWAITING_SELL tick above the default 5
percent threshold submits the sell. -/
theorem c8_sell_threshold_witness :
    ((execute defaultParams { defaultState with
        waiting_for_sell := true
        last_buy_price := some 2
        initial_reference_set := true }
      ⟨60, [3], 100, 100, true, true⟩).submitted ≠ [] ↔
      (2 : ℚ) * (1 + defaultParams.sell_rise_percentage) ≤ get_xlm_price [3]) ∧
    (2 : ℚ) * (1 + defaultParams.sell_rise_percentage) ≤ get_xlm_price [3] := by
  have h := c8_sell_threshold defaultParams
    { defaultState with
      waiting_for_sell := true
      last_buy_price := some 2
      initial_reference_set := true }
    ⟨60, [3], 100, 100, true, true⟩ 2
    rfl (by show ¬ ((60 : ℚ) - 0 < 60); norm_num)
    (by show (0 : ℚ) < 100; norm_num) rfl rfl rfl rfl (by norm_num)
    (by show (5 : ℚ) < 100; norm_num)
  refine ⟨h.1, ?_⟩
  show (2 : ℚ) * (1 + defaultParams.sell_rise_percentage) ≤ 3
  norm_num [defaultParams]

/-- C1, counterexample: with an empty ask side the price is read as 0
rather than failing: an AWAITING_SELL tick returns hold (not an error),
and an UNINITIALIZED tick submits the bootstrap sell at price 0. -/
theorem c1_counterexample :
    (execute defaultParams { defaultState with
        waiting_for_sell := true
        last_buy_price := some 2
        initial_reference_set := true }
      ⟨60, [], 100, 100, true, true⟩).action = .hold ∧
    (execute defaultParams { defaultState with
        waiting_for_sell := true
        last_buy_price := some 2
        initial_reference_set := true }
      ⟨60, [], 100, 100, true, true⟩).action ≠ .error ∧
    (execute defaultParams defaultState ⟨60, [], 10, 30, true, true⟩).submitted
      = [⟨.sellXlm, 3, 0⟩] := by
  have hrun := execute_run defaultParams
    { defaultState with
      waiting_for_sell := true
      last_buy_price := some 2
      initial_reference_set := true }
    ⟨60, [], 100, 100, true, true⟩
    (by show ¬ ((60 : ℚ) - 0 < 60); norm_num) rfl
  have hhold : (execute defaultParams { defaultState with
      waiting_for_sell := true
      last_buy_price := some 2
      initial_reference_set := true }
      ⟨60, [], 100, 100, true, true⟩).action = .hold := by
    have hsB := tickMain_sellBranch defaultParams
      (afterPriceUpdate
        { defaultState with
          waiting_for_sell := true
          last_buy_price := some 2
          initial_reference_set := true }
        ⟨60, [], 100, 100, true, true⟩)
      ⟨60, [], 100, 100, true, true⟩
      (get_xlm_price (⟨60, [], 100, 100, true, true⟩ : TickInput).asks)
      rfl
      (by show ((false : Bool) && truthy none && truthy none) = false; rfl)
      (by show ((true : Bool) && truthy (some (2 : ℚ))) = true
          simp [truthy])
    rw [hrun, hsB]
    rw [sellBranch_hold _ _ _ _
      (by show ¬ ((2 : ℚ) * (1 + 5/100) ≤ 0); norm_num)]
  refine ⟨hhold, by rw [hhold]; simp, ?_⟩
  have hrun2 := execute_run defaultParams defaultState ⟨60, [], 10, 30, true, true⟩
    (by show ¬ ((60 : ℚ) - 0 < 60); norm_num) rfl
  rw [hrun2]
  rw [tickMain_bootstrap_ok _ _ _ _ rfl (by show ¬ ((10 : ℚ) < 3 + 5); norm_num) rfl]
  rfl

/-- C1, amended: on an empty-book tick the price is read as 0 rather
than raising NoLiquidity; in AWAITING_BUY (positive sell reference) the
zero price satisfies the drop condition and the division by zero in buy
sizing is caught, so the tick reports an error with no order and no
phase change; in AWAITING_SELL the tick returns hold with no order and
no phase change; in UNINITIALIZED with sufficient balance the bootstrap
sell is still submitted at price 0. -/
theorem c1_empty_book (p : Params) (s : TradeState) (i : TickInput) (P B T : ℚ) :
    (i.asks = [] → p.trading_enabled = true →
      ¬ i.now - s.last_price_check < p.price_check_interval →
      s.initial_reference_set = true → s.waiting_for_buy = true →
      s.last_sell_price = some P → 0 < P → s.last_sell_time = some T → T ≠ 0 →
      p.buy_drop_percentage ≤ 1 →
      (execute p s i).action = .error ∧ (execute p s i).submitted = [] ∧
      core (execute p s i).state = core s) ∧
    (i.asks = [] → p.trading_enabled = true →
      ¬ i.now - s.last_price_check < p.price_check_interval →
      s.initial_reference_set = true → s.waiting_for_buy = false →
      s.waiting_for_sell = true → s.last_buy_price = some B → 0 < B →
      -1 < p.sell_rise_percentage →
      (execute p s i).action = .hold ∧ (execute p s i).submitted = [] ∧
      core (execute p s i).state = core s) ∧
    (i.asks = [] → p.trading_enabled = true →
      ¬ i.now - s.last_price_check < p.price_check_interval →
      s.initial_reference_set = false →
      p.initial_reference_amount + 5 ≤ i.xlm_balance →
      (execute p s i).submitted = [⟨.sellXlm, p.initial_reference_amount, 0⟩]) := by
  refine ⟨fun hasks hen hrate hirs hwfb hlsp hP hlst hT hfrac => ?_,
          fun hasks hen hrate hirs hwfb hwfs hlbp hB hrise => ?_,
          fun hasks hen hrate hirs hbal => ?_⟩
  · have h0 : get_xlm_price i.asks = 0 := by rw [hasks]; rfl
    have hrun := execute_run p s i hrate hen
    have hbr : ((afterPriceUpdate s i).waiting_for_buy
        && truthy (afterPriceUpdate s i).last_sell_price
        && truthy (afterPriceUpdate s i).last_sell_time) = true := by
      show (s.waiting_for_buy && truthy s.last_sell_price && truthy s.last_sell_time) = true
      rw [hwfb, hlsp, hlst]
      simp [truthy, ne_of_gt hP, hT]
    have hcond : buyConditions p (afterPriceUpdate s i) i 0 = true := by
      unfold buyConditions
      have h1 : price_drop_condition p ((afterPriceUpdate s i).last_sell_price.getD 0) 0
          = true := by
        show price_drop_condition p (s.last_sell_price.getD 0) 0 = true
        rw [hlsp]
        unfold price_drop_condition
        simp only [Option.getD_some, decide_eq_true_eq]
        exact mul_nonneg (le_of_lt hP) (by linarith)
      rw [h1]
      simp
    rw [hrun, h0,
      tickMain_buyBranch p (afterPriceUpdate s i) i 0 hirs hbr,
      buyBranch_error p (afterPriceUpdate s i) i hcond]
    exact ⟨rfl, rfl, rfl⟩
  · have h0 : get_xlm_price i.asks = 0 := by rw [hasks]; rfl
    have hrun := execute_run p s i hrate hen
    have hbf : ((afterPriceUpdate s i).waiting_for_buy
        && truthy (afterPriceUpdate s i).last_sell_price
        && truthy (afterPriceUpdate s i).last_sell_time) = false := by
      show (s.waiting_for_buy && truthy s.last_sell_price && truthy s.last_sell_time) = false
      rw [hwfb]
      simp
    have hsc : ((afterPriceUpdate s i).waiting_for_sell
        && truthy (afterPriceUpdate s i).last_buy_price) = true := by
      show (s.waiting_for_sell && truthy s.last_buy_price) = true
      rw [hwfs, hlbp]
      simp [truthy, ne_of_gt hB]
    have hgetD : (afterPriceUpdate s i).last_buy_price.getD 0 = B := by
      show s.last_buy_price.getD 0 = B
      rw [hlbp]
      rfl
    rw [hrun, h0, tickMain_sellBranch p (afterPriceUpdate s i) i 0 hirs hbf hsc,
      sellBranch_hold p (afterPriceUpdate s i) i 0
        (by rw [hgetD]; rw [not_le]; exact mul_pos hB (by linarith))]
    exact ⟨rfl, rfl, rfl⟩
  · have h0 : get_xlm_price i.asks = 0 := by rw [hasks]; rfl
    have hrun := execute_run p s i hrate hen
    rw [hrun, h0]
    cases hok : i.sell_offer_ok
    · rw [tickMain_bootstrap_rejected p (afterPriceUpdate s i) i 0 hirs
        (not_lt.mpr hbal) hok]
    · rw [tickMain_bootstrap_ok p (afterPriceUpdate s i) i 0 hirs
        (not_lt.mpr hbal) hok]

/-- C1, witness for the amended claim: concrete empty-book ticks in
AWAITING_BUY (error) and AWAITING_SELL (hold). -/
theorem c1_empty_book_witness :
    (execute defaultParams { defaultState with
        waiting_for_buy := true
        last_sell_price := some 2
        last_sell_time := some 50
        initial_reference_set := true }
      ⟨60, [], 100, 100, true, true⟩).action = .error ∧
    (execute defaultParams { defaultState with
        waiting_for_sell := true
        last_buy_price := some 2
        initial_reference_set := true }
      ⟨120, [], 100, 100, true, true⟩).action = .hold := by
  have hA := (c1_empty_book defaultParams
    { defaultState with
      waiting_for_buy := true
      last_sell_price := some 2
      last_sell_time := some 50
      initial_reference_set := true }
    ⟨60, [], 100, 100, true, true⟩ 2 1 50).1
    rfl rfl (by show ¬ ((60 : ℚ) - 0 < 60); norm_num) rfl rfl rfl (by norm_num) rfl
    (by norm_num) (by show (2 : ℚ)/100 ≤ 1; norm_num)
  have hB := (c1_empty_book defaultParams
    { defaultState with
      waiting_for_sell := true
      last_buy_price := some 2
      initial_reference_set := true }
    ⟨120, [], 100, 100, true, true⟩ 1 2 1).2.1
    rfl rfl (by show ¬ ((120 : ℚ) - 0 < 60); norm_num) rfl rfl rfl rfl (by norm_num)
    (by show (-1 : ℚ) < 5/100; norm_num)
  exact ⟨hA.1, hB.1⟩

/-- C10, witness at a concrete state with 150 history samples. -/
theorem c10_history_bounds_witness :
    (save_state { defaultState with
        price_history := List.replicate 150 ((0 : ℚ), (1 : ℚ))
        initial_reference_set := true }).price_history.length ≤ 100 ∧
    (execute defaultParams { defaultState with
        price_history := List.replicate 150 ((0 : ℚ), (1 : ℚ))
        initial_reference_set := true }
      ⟨60, [1], 10, 30, true, true⟩).state.price_history.length ≤ 1000 := by
  have h := c10_history_bounds { defaultState with
      price_history := List.replicate 150 ((0 : ℚ), (1 : ℚ))
      initial_reference_set := true } defaultParams ⟨60, [1], 10, 30, true, true⟩
  exact ⟨h.2.1, h.2.2.2.2 rfl (by simp)⟩

/-! ### Alternation of successful trades -/

/-- Bool negation helper. -/
theorem bool_eq_false_of_not {b : Bool} (h : ¬ b = true) : b = false := by
  cases b
  · rfl
  · exact absurd rfl h

/-- Under `InputOK`, a nonzero tick price is positive. -/
theorem price_pos_of_ne_zero (i : TickInput) (hi : InputOK i)
    (h : get_xlm_price i.asks ≠ 0) : 0 < get_xlm_price i.asks := by
  cases hasks : i.asks with
  | nil => exact absurd (by rw [hasks]; rfl) h
  | cons a t =>
    have ha := hi.2.1 a (by rw [hasks]; exact List.mem_cons_self a t)
    exact ha

/-- Under `InputOK`, an accepted sell submission implies a nonempty
book, hence a positive tick price. -/
theorem price_pos_of_sell_accepted (i : TickInput) (hi : InputOK i)
    (h : i.sell_offer_ok = true) : 0 < get_xlm_price i.asks := by
  cases hasks : i.asks with
  | nil =>
    rw [hi.2.2 hasks] at h
    cases h
  | cons a t =>
    have ha := hi.2.1 a (by rw [hasks]; exact List.mem_cons_self a t)
    exact ha

/-- The cleared phase fields after a reset are well formed. -/
theorem coreWF_reset : coreWF ⟨false, false, false, none, none, none, none⟩ :=
  ⟨fun _ hq => (nomatch hq), fun _ hq => (nomatch hq),
   fun _ ht2 => (nomatch ht2), fun _ ht2 => (nomatch ht2)⟩

/-- Case analysis of the phase dispatch: a tick either makes no trade
and leaves the phase fields unchanged, resets them, or performs exactly
one successful trade whose pre- and post-conditions are recorded. -/
theorem tickMain_cases (p : Params) (s : TradeState) (i : TickInput) (price : ℚ) :
    (tradeOf (tickMain p s i price) = none ∧
      core (tickMain p s i price).state = core s) ∨
    (tradeOf (tickMain p s i price) = none ∧
      core (tickMain p s i price).state = ⟨false, false, false, none, none, none, none⟩ ∧
      s.initial_reference_set = true ∧
      (s.waiting_for_buy && truthy s.last_sell_price && truthy s.last_sell_time) = false ∧
      (s.waiting_for_sell && truthy s.last_buy_price) = false) ∨
    (tradeOf (tickMain p s i price) = some .buySide ∧
      s.waiting_for_buy = true ∧ s.initial_reference_set = true ∧ price ≠ 0 ∧
      core (tickMain p s i price).state
        = ⟨false, true, true, s.last_sell_price, some price,
           s.last_sell_time, some i.now⟩) ∨
    (tradeOf (tickMain p s i price) = some .sellSide ∧
      (tickMain p s i price).action = .sell ∧
      s.waiting_for_sell = true ∧ s.initial_reference_set = true ∧
      truthy s.last_buy_price = true ∧
      s.last_buy_price.getD 0 * (1 + p.sell_rise_percentage) ≤ price ∧
      core (tickMain p s i price).state
        = ⟨true, false, true, some price, s.last_buy_price,
           some i.now, s.last_buy_time⟩) ∨
    (tradeOf (tickMain p s i price) = some .sellSide ∧
      (tickMain p s i price).action = .initial_reference ∧
      s.initial_reference_set = false ∧ i.sell_offer_ok = true ∧
      core (tickMain p s i price).state
        = ⟨true, false, true, some price, s.last_buy_price,
           some i.now, s.last_buy_time⟩) := by
  by_cases hirs : s.initial_reference_set = false
  · by_cases hbal : i.xlm_balance < p.initial_reference_amount + 5
    · left
      rw [tickMain_bootstrap_insufficient p s i price hirs hbal]
      exact ⟨rfl, rfl⟩
    · cases hok : i.sell_offer_ok
      · left
        rw [tickMain_bootstrap_rejected p s i price hirs hbal hok]
        exact ⟨rfl, rfl⟩
      · right; right; right; right
        rw [tickMain_bootstrap_ok p s i price hirs hbal hok]
        refine ⟨rfl, rfl, hirs, rfl, ?_⟩
        simp [core, bootState]
  · have hirs2 : s.initial_reference_set = true := by
      cases h : s.initial_reference_set
      · exact absurd h hirs
      · rfl
    by_cases hb : (s.waiting_for_buy && truthy s.last_sell_price
        && truthy s.last_sell_time) = true
    · rw [tickMain_buyBranch p s i price hirs2 hb]
      by_cases hcond : buyConditions p s i price = true
      · cases hbuy : execute_buy p price i.xlm_balance i.usdc_balance i.buy_offer_ok with
        | raised =>
          left
          rw [buyBranch_error2 p s i price hcond hbuy]
          exact ⟨rfl, rfl⟩
        | noFunds =>
          left
          rw [buyBranch_noFunds p s i price hcond hbuy]
          exact ⟨rfl, rfl⟩
        | attempted amt ok =>
          cases ok
          · left
            rw [buyBranch_fail p s i price amt hcond hbuy]
            exact ⟨rfl, rfl⟩
          · right; right; left
            rw [buyBranch_ok p s i price amt hcond hbuy]
            simp only [Bool.and_eq_true] at hb
            refine ⟨rfl, hb.1.1, hirs2, ?_, ?_⟩
            · intro hp
              rw [hp, execute_buy_zero] at hbuy
              cases hbuy
            · simp [core, buyState, hirs2]
      · left
        rw [buyBranch_hold p s i price (bool_eq_false_of_not hcond)]
        exact ⟨rfl, rfl⟩
    · have hb2 := bool_eq_false_of_not hb
      by_cases hsc : (s.waiting_for_sell && truthy s.last_buy_price) = true
      · rw [tickMain_sellBranch p s i price hirs2 hb2 hsc]
        by_cases hc : s.last_buy_price.getD 0 * (1 + p.sell_rise_percentage) ≤ price
        · cases hsell : execute_sell p price i.xlm_balance i.usdc_balance
              i.sell_offer_ok with
          | noFunds =>
            left
            rw [sellBranch_noFunds p s i price hc hsell]
            exact ⟨rfl, rfl⟩
          | attempted amt ok =>
            cases ok
            · left
              rw [sellBranch_fail p s i price amt hc hsell]
              exact ⟨rfl, rfl⟩
            · right; right; right; left
              rw [sellBranch_ok p s i price amt hc hsell]
              simp only [Bool.and_eq_true] at hsc
              refine ⟨rfl, rfl, hsc.1, hirs2, hsc.2, hc, ?_⟩
              simp [core, sellState, hirs2]
        · left
          rw [sellBranch_hold p s i price hc]
          exact ⟨rfl, rfl⟩
      · right; left
        rw [tickMain_reset p s i price hirs2 hb2 (bool_eq_false_of_not hsc)]
        exact ⟨rfl, by simp [core, resetState], hirs2, hb2, bool_eq_false_of_not hsc⟩

/-- Run unfolding on a tick with no successful trade. -/
theorem runTrades_cons_none (p : Params) (s : TradeState) (i : TickInput)
    (is : List TickInput) (h : tradeOf (execute p s i) = none) :
    runTrades p s (i :: is) = runTrades p (execute p s i).state is := by
  conv_lhs => rw [runTrades]
  simp only [h]

/-- Run unfolding on a tick with a successful trade. -/
theorem runTrades_cons_some (p : Params) (s : TradeState) (i : TickInput)
    (is : List TickInput) (t : TradeSide) (h : tradeOf (execute p s i) = some t) :
    runTrades p s (i :: is) = t :: runTrades p (execute p s i).state is := by
  conv_lhs => rw [runTrades]
  simp only [h]

/-- Alternation relative to a forbidden previous side gives a chain of
pairwise-distinct adjacent sides. -/
theorem altFrom_chain : ∀ (l : List TradeSide) (f : Option TradeSide),
    altFrom f l → l.Chain' (fun a b => a ≠ b)
  | [], _, _ => List.chain'_nil
  | [_], _, _ => List.chain'_singleton _
  | t :: t2 :: l, _, h => by
    refine (List.chain'_cons).mpr ⟨?_, altFrom_chain (t2 :: l) (some t) h.2⟩
    intro he
    exact h.2.1 (by rw [he])

/-- Core induction: starting from well-formed phase fields, the trade
sides produced by any run alternate; the post-sell and post-buy
strengthenings forbid repeating the respective side next. -/
theorem run_alternation (p : Params) (hrise : -1 < p.sell_rise_percentage) :
    ∀ (is : List TickInput), (∀ i ∈ is, InputOK i) → ∀ s : TradeState,
      (coreWF (core s) → altFrom none (runTrades p s is)) ∧
      (postSell (core s) → altFrom (some .sellSide) (runTrades p s is)) ∧
      (postBuy (core s) → altFrom (some .buySide) (runTrades p s is)) := by
  intro is
  induction is with
  | nil => exact fun _ s => ⟨fun _ => trivial, fun _ => trivial, fun _ => trivial⟩
  | cons i is ih =>
    intro hok s
    have hi := hok i (List.mem_cons_self i is)
    have ihs := ih fun j hj => hok j (List.mem_cons_of_mem i hj)
    by_cases hrate : i.now - s.last_price_check < p.price_check_interval
    · have hres := execute_skip p s i hrate
      have hnone : tradeOf (execute p s i) = none := by rw [hres]; rfl
      have hst : (execute p s i).state = s := by rw [hres]
      rw [runTrades_cons_none p s i is hnone, hst]
      exact ihs s
    · by_cases hen : p.trading_enabled = true
      · have hrun := execute_run p s i hrate hen
        rcases tickMain_cases p (afterPriceUpdate s i) i (get_xlm_price i.asks) with
          ⟨ht, hc⟩ | ⟨ht, hc, _, hbF, hsF⟩ | ⟨ht, hwfb, hirs2, hpne, hc⟩ |
          ⟨ht, _, hwfs, hirs2, htr, hcmp, hc⟩ | ⟨ht, _, hirs2, hok2, hc⟩
        · -- no trade, phase fields unchanged
          have hnone : tradeOf (execute p s i) = none := by rw [hrun]; exact ht
          have hc' : core (execute p s i).state = core s := by rw [hrun]; exact hc
          rw [runTrades_cons_none p s i is hnone]
          refine ⟨fun h => (ihs _).1 ?_, fun h => (ihs _).2.1 ?_,
            fun h => (ihs _).2.2 ?_⟩ <;> rw [hc'] <;> exact h
        · -- reset: no trade, phase fields cleared
          have hnone : tradeOf (execute p s i) = none := by rw [hrun]; exact ht
          have hc' : core (execute p s i).state
              = ⟨false, false, false, none, none, none, none⟩ := by rw [hrun]; exact hc
          rw [runTrades_cons_none p s i is hnone]
          refine ⟨fun h => (ihs _).1 ?_, fun h => ?_, fun h => ?_⟩
          · rw [hc']
            exact coreWF_reset
          · exfalso
            have hbF2 : (s.waiting_for_buy && truthy s.last_sell_price
                && truthy s.last_sell_time) = false := hbF
            have h1 : s.waiting_for_buy = true := h.2.1
            rcases h.2.2.2.2.1 with ⟨q, hq, hq0⟩
            rcases h.2.2.2.2.2 with ⟨t, htt, ht0⟩
            have h2 : s.last_sell_price = some q := hq
            have h3 : s.last_sell_time = some t := htt
            rw [show (s.waiting_for_buy && truthy s.last_sell_price
                && truthy s.last_sell_time) = true by
              rw [h1, h2, h3]
              simp [truthy, ne_of_gt hq0, ne_of_gt ht0]] at hbF2
            cases hbF2
          · exfalso
            have hsF2 : (s.waiting_for_sell && truthy s.last_buy_price) = false := hsF
            have h1 : s.waiting_for_sell = true := h.2.2.1
            rcases h.2.2.2.2 with ⟨q, hq, hq0⟩
            have h2 : s.last_buy_price = some q := hq
            rw [show (s.waiting_for_sell && truthy s.last_buy_price) = true by
              rw [h1, h2]
              simp [truthy, ne_of_gt hq0]] at hsF2
            cases hsF2
        · -- successful buy
          have hsome : tradeOf (execute p s i) = some .buySide := by rw [hrun]; exact ht
          have hc' : core (execute p s i).state
              = ⟨false, true, true, s.last_sell_price, some (get_xlm_price i.asks),
                 s.last_sell_time, some i.now⟩ := by rw [hrun]; exact hc
          have hppos : 0 < get_xlm_price i.asks := price_pos_of_ne_zero i hi hpne
          rw [runTrades_cons_some p s i is .buySide hsome]
          have hpostBuy : coreWF (core s) → postBuy (core (execute p s i).state) := by
            intro hwf
            rw [hc']
            refine ⟨⟨fun q hq => hwf.1 q hq, ?_, fun t ht2 => hwf.2.2.1 t ht2,
              ?_⟩, rfl, rfl, rfl, ⟨get_xlm_price i.asks, rfl, hppos⟩⟩
            · intro q hq
              injection hq with h2
              rw [← h2]
              exact hppos
            · intro t ht2
              injection ht2 with h2
              rw [← h2]
              exact hi.1
          refine ⟨fun h => ⟨by simp, (ihs _).2.2 (hpostBuy h)⟩,
            fun h => ⟨by simp, (ihs _).2.2 (hpostBuy h.1)⟩, fun h => ?_⟩
          · exfalso
            have h1 : s.waiting_for_buy = false := h.2.1
            have h2 : s.waiting_for_buy = true := hwfb
            rw [h1] at h2
            cases h2
        · -- successful sell
          have hsome : tradeOf (execute p s i) = some .sellSide := by rw [hrun]; exact ht
          have hc' : core (execute p s i).state
              = ⟨true, false, true, some (get_xlm_price i.asks), s.last_buy_price,
                 some i.now, s.last_buy_time⟩ := by rw [hrun]; exact hc
          rw [runTrades_cons_some p s i is .sellSide hsome]
          have hpostSell : coreWF (core s) → postSell (core (execute p s i).state) := by
            intro hwf
            have htr2 : truthy s.last_buy_price = true := htr
            have hcmp2 : s.last_buy_price.getD 0 * (1 + p.sell_rise_percentage)
                ≤ get_xlm_price i.asks := hcmp
            have hlbp : ∃ q, s.last_buy_price = some q ∧ 0 < q := by
              cases hlb : s.last_buy_price with
              | none =>
                exfalso
                rw [show truthy s.last_buy_price = false by rw [hlb]; rfl] at htr2
                cases htr2
              | some q =>
                refine ⟨q, rfl, hwf.2.1 q hlb⟩
            rcases hlbp with ⟨q, hq, hq0⟩
            have hppos : 0 < get_xlm_price i.asks := by
              have h1 : 0 < q * (1 + p.sell_rise_percentage) :=
                mul_pos hq0 (by linarith)
              have h2 : s.last_buy_price.getD 0 = q := by rw [hq]; rfl
              rw [h2] at hcmp2
              linarith
            rw [hc']
            refine ⟨⟨?_, fun r hr => hwf.2.1 r hr,
              ?_, fun t ht2 => hwf.2.2.2 t ht2⟩,
              rfl, rfl, rfl, ⟨get_xlm_price i.asks, rfl, hppos⟩,
              ⟨i.now, rfl, hi.1⟩⟩
            · intro r hr
              injection hr with h2
              rw [← h2]
              exact hppos
            · intro t ht2
              injection ht2 with h2
              rw [← h2]
              exact hi.1
          refine ⟨fun h => ⟨by simp, (ihs _).2.1 (hpostSell h)⟩, fun h => ?_,
            fun h => ⟨by simp, (ihs _).2.1 (hpostSell h.1)⟩⟩
          · exfalso
            have h1 : s.waiting_for_sell = false := h.2.2.1
            have h2 : s.waiting_for_sell = true := hwfs
            rw [h1] at h2
            cases h2
        · -- successful bootstrap
          have hsome : tradeOf (execute p s i) = some .sellSide := by rw [hrun]; exact ht
          have hc' : core (execute p s i).state
              = ⟨true, false, true, some (get_xlm_price i.asks), s.last_buy_price,
                 some i.now, s.last_buy_time⟩ := by rw [hrun]; exact hc
          have hppos : 0 < get_xlm_price i.asks := price_pos_of_sell_accepted i hi hok2
          rw [runTrades_cons_some p s i is .sellSide hsome]
          have hpostSell : coreWF (core s) → postSell (core (execute p s i).state) := by
            intro hwf
            rw [hc']
            refine ⟨⟨?_, fun r hr => hwf.2.1 r hr,
              ?_, fun t ht2 => hwf.2.2.2 t ht2⟩,
              rfl, rfl, rfl, ⟨get_xlm_price i.asks, rfl, hppos⟩,
              ⟨i.now, rfl, hi.1⟩⟩
            · intro r hr
              injection hr with h2
              rw [← h2]
              exact hppos
            · intro t ht2
              injection ht2 with h2
              rw [← h2]
              exact hi.1
          refine ⟨fun h => ⟨by simp, (ihs _).2.1 (hpostSell h)⟩, fun h => ?_,
            fun h => ?_⟩
          · exfalso
            have h1 : s.initial_reference_set = true := h.2.2.2.1
            have h2 : s.initial_reference_set = false := hirs2
            rw [h1] at h2
            cases h2
          · exfalso
            have h1 : s.initial_reference_set = true := h.2.2.2.1
            have h2 : s.initial_reference_set = false := hirs2
            rw [h1] at h2
            cases h2
      · have hres := execute_disabled p s i hrate (bool_eq_false_of_not hen)
        have hnone : tradeOf (execute p s i) = none := by rw [hres]; rfl
        have hc' : core (execute p s i).state = core s := by rw [hres]; rfl
        rw [runTrades_cons_none p s i is hnone]
        refine ⟨fun h => (ihs _).1 ?_, fun h => (ihs _).2.1 ?_,
          fun h => (ihs _).2.2 ?_⟩ <;> rw [hc'] <;> exact h

/-- C4, counterexample: two consecutive successful sells without an
intervening buy.  Starting from the UNINITIALIZED defaults, a tick with
an empty ask book submits the bootstrap sell at the default price 0; if
the exchange accepts it, the stored reference price 0 is falsy, so the
next tick falls through the phase dispatch into the reset branch, and
the tick after that runs the bootstrap sell again: the run produces the
trade sequence sell, sell. -/
theorem c4_counterexample :
    runTrades defaultParams defaultState
        [⟨60, [], 10, 30, true, true⟩, ⟨200, [1], 10, 30, true, true⟩,
         ⟨400, [1], 10, 30, true, true⟩]
      = [.sellSide, .sellSide] ∧
    ¬ List.Chain' (fun a b => a ≠ b) ([.sellSide, .sellSide] : List TradeSide) := by
  constructor
  · have t1 : tradeOf (execute defaultParams defaultState ⟨60, [], 10, 30, true, true⟩)
        = some .sellSide := by
      rw [execute_run defaultParams defaultState ⟨60, [], 10, 30, true, true⟩
          (by show ¬ ((60 : ℚ) - 0 < 60); norm_num) rfl,
        tickMain_bootstrap_ok defaultParams
          (afterPriceUpdate defaultState ⟨60, [], 10, 30, true, true⟩)
          ⟨60, [], 10, 30, true, true⟩ _
          rfl (by show ¬ ((10 : ℚ) < 3 + 5); norm_num) rfl]
      rfl
    have hs1 : (execute defaultParams defaultState ⟨60, [], 10, 30, true, true⟩).state
        = bootState (afterPriceUpdate defaultState ⟨60, [], 10, 30, true, true⟩)
            (60 : ℚ) (0 : ℚ) := by
      rw [execute_run defaultParams defaultState ⟨60, [], 10, 30, true, true⟩
          (by show ¬ ((60 : ℚ) - 0 < 60); norm_num) rfl,
        tickMain_bootstrap_ok defaultParams
          (afterPriceUpdate defaultState ⟨60, [], 10, 30, true, true⟩)
          ⟨60, [], 10, 30, true, true⟩ _
          rfl (by show ¬ ((10 : ℚ) < 3 + 5); norm_num) rfl]
      rfl
    rw [runTrades_cons_some defaultParams defaultState ⟨60, [], 10, 30, true, true⟩
        [⟨200, [1], 10, 30, true, true⟩, ⟨400, [1], 10, 30, true, true⟩] .sellSide t1, hs1]
    have t2 : tradeOf (execute defaultParams
        (bootState (afterPriceUpdate defaultState ⟨60, [], 10, 30, true, true⟩)
          (60 : ℚ) (0 : ℚ))
        ⟨200, [1], 10, 30, true, true⟩) = none := by
      rw [execute_run defaultParams
          (bootState (afterPriceUpdate defaultState ⟨60, [], 10, 30, true, true⟩)
            (60 : ℚ) (0 : ℚ))
          ⟨200, [1], 10, 30, true, true⟩
          (by show ¬ ((200 : ℚ) - 60 < 60); norm_num) rfl,
        tickMain_reset defaultParams
          (afterPriceUpdate
            (bootState (afterPriceUpdate defaultState ⟨60, [], 10, 30, true, true⟩)
              (60 : ℚ) (0 : ℚ))
            ⟨200, [1], 10, 30, true, true⟩)
          ⟨200, [1], 10, 30, true, true⟩ _
          rfl
          (by show (true && truthy (some (0 : ℚ)) && truthy (some (60 : ℚ))) = false
              simp [truthy])
          (by show (false && truthy none) = false
              rfl)]
      rfl
    have hs2 : (execute defaultParams
        (bootState (afterPriceUpdate defaultState ⟨60, [], 10, 30, true, true⟩)
          (60 : ℚ) (0 : ℚ))
        ⟨200, [1], 10, 30, true, true⟩).state
        = resetState (afterPriceUpdate
            (bootState (afterPriceUpdate defaultState ⟨60, [], 10, 30, true, true⟩)
              (60 : ℚ) (0 : ℚ))
            ⟨200, [1], 10, 30, true, true⟩) := by
      rw [execute_run defaultParams
          (bootState (afterPriceUpdate defaultState ⟨60, [], 10, 30, true, true⟩)
            (60 : ℚ) (0 : ℚ))
          ⟨200, [1], 10, 30, true, true⟩
          (by show ¬ ((200 : ℚ) - 60 < 60); norm_num) rfl,
        tickMain_reset defaultParams
          (afterPriceUpdate
            (bootState (afterPriceUpdate defaultState ⟨60, [], 10, 30, true, true⟩)
              (60 : ℚ) (0 : ℚ))
            ⟨200, [1], 10, 30, true, true⟩)
          ⟨200, [1], 10, 30, true, true⟩ _
          rfl
          (by show (true && truthy (some (0 : ℚ)) && truthy (some (60 : ℚ))) = false
              simp [truthy])
          (by show (false && truthy none) = false
              rfl)]
    rw [runTrades_cons_none defaultParams _ ⟨200, [1], 10, 30, true, true⟩
        [⟨400, [1], 10, 30, true, true⟩] t2, hs2]
    have t3 : tradeOf (execute defaultParams
        (resetState (afterPriceUpdate
            (bootState (afterPriceUpdate defaultState ⟨60, [], 10, 30, true, true⟩)
              (60 : ℚ) (0 : ℚ))
            ⟨200, [1], 10, 30, true, true⟩))
        ⟨400, [1], 10, 30, true, true⟩) = some .sellSide := by
      rw [execute_run defaultParams
          (resetState (afterPriceUpdate
              (bootState (afterPriceUpdate defaultState ⟨60, [], 10, 30, true, true⟩)
                (60 : ℚ) (0 : ℚ))
              ⟨200, [1], 10, 30, true, true⟩))
          ⟨400, [1], 10, 30, true, true⟩
          (by show ¬ ((400 : ℚ) - 200 < 60); norm_num) rfl,
        tickMain_bootstrap_ok defaultParams
          (afterPriceUpdate
            (resetState (afterPriceUpdate
                (bootState (afterPriceUpdate defaultState ⟨60, [], 10, 30, true, true⟩)
                  (60 : ℚ) (0 : ℚ))
                ⟨200, [1], 10, 30, true, true⟩))
            ⟨400, [1], 10, 30, true, true⟩)
          ⟨400, [1], 10, 30, true, true⟩ _
          rfl (by show ¬ ((10 : ℚ) < 3 + 5); norm_num) rfl]
      rfl
    rw [runTrades_cons_some defaultParams _ ⟨400, [1], 10, 30, true, true⟩ [] .sellSide t3]
    rfl
  · intro h
    exact (List.chain'_cons.mp h).1 rfl

/-- C4: successful trades strictly alternate sides on every run whose
ticks satisfy the environment assumptions.  (a) A successful buy
happens only in a tick whose state has waiting_for_buy set and moves
the state to waiting_for_sell; (b) a successful sell or bootstrap sell
happens only from AWAITING_SELL or UNINITIALIZED and moves the state to
waiting_for_buy; (c) from any state with well-formed (positive or
unset) references, over ticks with a positive clock, positive ask
prices and no acceptance of the zero-price sell read from an empty
book, no successful trade repeats the side of its predecessor.
Without the environment assumptions the alternation fails: see the
counterexample, where a bootstrap sell accepted at price 0 is followed
by a second sell. -/
theorem c4_alternation (p : Params) (hrise : -1 < p.sell_rise_percentage) :
    (∀ (s : TradeState) (i : TickInput), tradeOf (execute p s i) = some .buySide →
      s.waiting_for_buy = true ∧ s.initial_reference_set = true ∧
      (execute p s i).state.waiting_for_buy = false ∧
      (execute p s i).state.waiting_for_sell = true) ∧
    (∀ (s : TradeState) (i : TickInput), tradeOf (execute p s i) = some .sellSide →
      (s.initial_reference_set = false ∨ s.waiting_for_sell = true) ∧
      (execute p s i).state.waiting_for_buy = true ∧
      (execute p s i).state.waiting_for_sell = false) ∧
    (∀ (s : TradeState) (is : List TickInput), (∀ j ∈ is, InputOK j) →
      coreWF (core s) →
      List.Chain' (fun a b => a ≠ b) (runTrades p s is)) := by
  refine ⟨?_, ?_, ?_⟩
  · intro s i ht
    by_cases hrate : i.now - s.last_price_check < p.price_check_interval
    · rw [execute_skip p s i hrate] at ht
      exact (nomatch ht)
    · by_cases hen : p.trading_enabled = true
      · rw [execute_run p s i hrate hen] at ht ⊢
        rcases tickMain_cases p (afterPriceUpdate s i) i (get_xlm_price i.asks) with
          ⟨h1, _⟩ | ⟨h1, _, _, _, _⟩ | ⟨h1, hwfb, hirs, _, hc⟩ |
          ⟨h1, _, _, _, _, _, _⟩ | ⟨h1, _, _, _, _⟩
        · rw [h1] at ht
          exact (nomatch ht)
        · rw [h1] at ht
          exact (nomatch ht)
        · refine ⟨hwfb, hirs, ?_, ?_⟩
          · exact congrArg Core.wfb hc
          · exact congrArg Core.wfs hc
        · rw [h1] at ht
          injection ht with h2
          exact (nomatch h2)
        · rw [h1] at ht
          injection ht with h2
          exact (nomatch h2)
      · rw [execute_disabled p s i hrate (bool_eq_false_of_not hen)] at ht
        exact (nomatch ht)
  · intro s i ht
    by_cases hrate : i.now - s.last_price_check < p.price_check_interval
    · rw [execute_skip p s i hrate] at ht
      exact (nomatch ht)
    · by_cases hen : p.trading_enabled = true
      · rw [execute_run p s i hrate hen] at ht ⊢
        rcases tickMain_cases p (afterPriceUpdate s i) i (get_xlm_price i.asks) with
          ⟨h1, _⟩ | ⟨h1, _, _, _, _⟩ | ⟨h1, _, _, _, _⟩ |
          ⟨h1, _, hwfs, _, _, _, hc⟩ | ⟨h1, _, hirs, _, hc⟩
        · rw [h1] at ht
          exact (nomatch ht)
        · rw [h1] at ht
          exact (nomatch ht)
        · rw [h1] at ht
          injection ht with h2
          exact (nomatch h2)
        · refine ⟨Or.inr hwfs, ?_, ?_⟩
          · exact congrArg Core.wfb hc
          · exact congrArg Core.wfs hc
        · refine ⟨Or.inl hirs, ?_, ?_⟩
          · exact congrArg Core.wfb hc
          · exact congrArg Core.wfs hc
      · rw [execute_disabled p s i hrate (bool_eq_false_of_not hen)] at ht
        exact (nomatch ht)
  · intro s is hok hwf
    exact altFrom_chain (runTrades p s is) none ((run_alternation p hrise is hok s).1 hwf)

/-- C4, witness: the alternation theorem instantiated at the default
parameters, a one-tick run from the UNINITIALIZED defaults with a
nonempty book, positive prices and a positive clock. -/
theorem c4_alternation_witness :
    (-1 : ℚ) < defaultParams.sell_rise_percentage ∧
    List.Chain' (fun a b => a ≠ b)
      (runTrades defaultParams defaultState [⟨60, [1], 10, 30, true, true⟩]) := by
  have hrise : (-1 : ℚ) < defaultParams.sell_rise_percentage := by
    show (-1 : ℚ) < 5/100
    norm_num
  refine ⟨hrise, (c4_alternation defaultParams hrise).2.2 defaultState
    [⟨60, [1], 10, 30, true, true⟩] ?_ ?_⟩
  · intro j hj
    rcases List.mem_singleton.mp hj with rfl
    refine ⟨by norm_num, ?_, fun h2 => (nomatch h2)⟩
    intro a ha
    rcases List.mem_singleton.mp ha with rfl
    norm_num
  · exact ⟨fun _ hq => (nomatch hq), fun _ hq => (nomatch hq),
      fun _ ht2 => (nomatch ht2), fun _ ht2 => (nomatch ht2)⟩

end Cashcow
